import Mathlib

/-!
Verification of the flight-dynamics core of `app_flightsim.cpp` (ramakarl/Flightsim).

The simulation state and the per-tick step `Sample::Advance`, together with the
landing evaluator `Sample::CheckLanding`, are embedded shallowly over `ℝ`
(the source's `float` arithmetic is modelled by exact real arithmetic).

The vector/quaternion library (`quaternion.h`, `Vec3F`) is not part of the
repository sources available here; those primitives are modelled from the
specification (3.x/4.4): unit-quaternion rotation, axis-angle construction,
direction-and-roll construction, damped shortest rotation between vectors
(with an invalid result in the degenerate antiparallel case, modelled as
`Option`), and renormalization.  The Euler-angle extraction `toEuler` has no
formula given in the spec, so the step function is parameterized by it.
-/

namespace Flightsim

/-- 3-component real vector, modelling the library type `Vec3F`. -/
structure Vec3F where
  x : ℝ
  y : ℝ
  z : ℝ

@[ext] theorem Vec3F.ext_comp {a b : Vec3F} (hx : a.x = b.x) (hy : a.y = b.y)
    (hz : a.z = b.z) : a = b := by
  cases a; cases b; simp_all

namespace Vec3F

noncomputable instance : Add Vec3F := ⟨fun a b => ⟨a.x + b.x, a.y + b.y, a.z + b.z⟩⟩

noncomputable instance : Neg Vec3F := ⟨fun a => ⟨-a.x, -a.y, -a.z⟩⟩

/-- Componentwise scaling, modelling `Vec3F * float`. -/
noncomputable def smul (a : Vec3F) (c : ℝ) : Vec3F := ⟨a.x * c, a.y * c, a.z * c⟩

/-- Componentwise division by a scalar, modelling `Vec3F / float`. -/
noncomputable def sdiv (a : Vec3F) (c : ℝ) : Vec3F := ⟨a.x / c, a.y / c, a.z / c⟩

/-- Modelled from the spec: the euclidean dot product (`Vec3F::Dot`). -/
noncomputable def Dot (a b : Vec3F) : ℝ := a.x * b.x + a.y * b.y + a.z * b.z

/-- Modelled from the spec: the euclidean cross product (`Vec3F::Cross`). -/
noncomputable def Cross (a b : Vec3F) : Vec3F :=
  ⟨a.y * b.z - a.z * b.y, a.z * b.x - a.x * b.z, a.x * b.y - a.y * b.x⟩

/-- Squared euclidean length. -/
noncomputable def lengthSq (a : Vec3F) : ℝ := a.x * a.x + a.y * a.y + a.z * a.z

/-- Modelled from the spec: euclidean length (`Vec3F::Length`). -/
noncomputable def Length (a : Vec3F) : ℝ := Real.sqrt a.lengthSq

/-- Modelled from the spec: `Vec3F::Normalize`, division by the length
(the zero vector is left unchanged, where the float library would produce NaN;
inside `Advance` the argument is always a unit vector). -/
noncomputable def Normalize (a : Vec3F) : Vec3F :=
  if a.Length = 0 then a else a.sdiv a.Length

@[simp] theorem add_x (a b : Vec3F) : (a + b).x = a.x + b.x := rfl
@[simp] theorem add_y (a b : Vec3F) : (a + b).y = a.y + b.y := rfl
@[simp] theorem add_z (a b : Vec3F) : (a + b).z = a.z + b.z := rfl
@[simp] theorem smul_x (a : Vec3F) (c : ℝ) : (a.smul c).x = a.x * c := rfl
@[simp] theorem smul_y (a : Vec3F) (c : ℝ) : (a.smul c).y = a.y * c := rfl
@[simp] theorem smul_z (a : Vec3F) (c : ℝ) : (a.smul c).z = a.z * c := rfl
@[simp] theorem sdiv_x (a : Vec3F) (c : ℝ) : (a.sdiv c).x = a.x / c := rfl
@[simp] theorem sdiv_y (a : Vec3F) (c : ℝ) : (a.sdiv c).y = a.y / c := rfl
@[simp] theorem sdiv_z (a : Vec3F) (c : ℝ) : (a.sdiv c).z = a.z / c := rfl

theorem Dot_def (a b : Vec3F) : a.Dot b = a.x * b.x + a.y * b.y + a.z * b.z := rfl

theorem lengthSq_def (a : Vec3F) : a.lengthSq = a.x * a.x + a.y * a.y + a.z * a.z := rfl

theorem lengthSq_nonneg (a : Vec3F) : 0 ≤ a.lengthSq := by
  have := sq_nonneg a.x
  have := sq_nonneg a.y
  have := sq_nonneg a.z
  simp only [lengthSq]
  nlinarith

theorem Length_nonneg (a : Vec3F) : 0 ≤ a.Length := Real.sqrt_nonneg _

theorem Length_sq (a : Vec3F) : a.Length * a.Length = a.lengthSq :=
  Real.mul_self_sqrt a.lengthSq_nonneg

theorem Length_eq_one (a : Vec3F) (h : a.lengthSq = 1) : a.Length = 1 := by
  rw [Length, h, Real.sqrt_one]

theorem Normalize_of_unit (a : Vec3F) (h : a.lengthSq = 1) : a.Normalize = a := by
  have h1 : a.Length = 1 := a.Length_eq_one h
  rw [Normalize, h1]
  simp [sdiv]

theorem lengthSq_smul (a : Vec3F) (c : ℝ) : (a.smul c).lengthSq = c ^ 2 * a.lengthSq := by
  simp [lengthSq, smul]; ring

theorem lengthSq_sdiv (a : Vec3F) (c : ℝ) : (a.sdiv c).lengthSq = a.lengthSq / c ^ 2 := by
  simp only [lengthSq, sdiv]
  field_simp
  ring

theorem Length_ne_zero (a : Vec3F) (h : a.lengthSq ≠ 0) : a.Length ≠ 0 :=
  (Real.sqrt_ne_zero a.lengthSq_nonneg).mpr h

theorem lengthSq_Normalize (a : Vec3F) (h : a.lengthSq ≠ 0) :
    a.Normalize.lengthSq = 1 := by
  rw [Normalize, if_neg (a.Length_ne_zero h), lengthSq_sdiv, sq, a.Length_sq]
  exact div_self h

/-- Lagrange identity: `‖a × b‖² = ‖a‖²‖b‖² − (a·b)²`. -/
theorem lengthSq_Cross (a b : Vec3F) :
    (a.Cross b).lengthSq = a.lengthSq * b.lengthSq - (a.Dot b) ^ 2 := by
  simp only [lengthSq, Cross, Dot]
  ring

end Vec3F

/-- Real quaternion (scalar part `W`, vector part `X,Y,Z`),
modelling the library type `Quaternion` of `quaternion.h`. -/
structure Quaternion where
  W : ℝ
  X : ℝ
  Y : ℝ
  Z : ℝ

namespace Quaternion

/-- Hamilton product, modelling `Quaternion::operator*`. -/
noncomputable def mul (p q : Quaternion) : Quaternion :=
  ⟨p.W * q.W - p.X * q.X - p.Y * q.Y - p.Z * q.Z,
   p.W * q.X + p.X * q.W + p.Y * q.Z - p.Z * q.Y,
   p.W * q.Y - p.X * q.Z + p.Y * q.W + p.Z * q.X,
   p.W * q.Z + p.X * q.Y - p.Y * q.X + p.Z * q.W⟩

/-- Quaternion conjugate. -/
noncomputable def conj (q : Quaternion) : Quaternion := ⟨q.W, -q.X, -q.Y, -q.Z⟩

/-- Squared magnitude. -/
noncomputable def normSq (q : Quaternion) : ℝ :=
  q.W * q.W + q.X * q.X + q.Y * q.Y + q.Z * q.Z

/-- Magnitude of a quaternion. -/
noncomputable def magnitude (q : Quaternion) : ℝ := Real.sqrt q.normSq

/-- Modelled from the spec: `Quaternion::normalize`, division by the magnitude
(renormalization after every composition; a zero quaternion is left unchanged,
which never occurs inside `Advance`). -/
noncomputable def normalize (q : Quaternion) : Quaternion :=
  if q.magnitude = 0 then q
  else ⟨q.W / q.magnitude, q.X / q.magnitude, q.Y / q.magnitude, q.Z / q.magnitude⟩

theorem normSq_def (q : Quaternion) :
    q.normSq = q.W * q.W + q.X * q.X + q.Y * q.Y + q.Z * q.Z := rfl

theorem normSq_nonneg (q : Quaternion) : 0 ≤ q.normSq := by
  simp only [normSq]; nlinarith [sq_nonneg q.W, sq_nonneg q.X, sq_nonneg q.Y, sq_nonneg q.Z]

theorem normSq_mul (p q : Quaternion) : (p.mul q).normSq = p.normSq * q.normSq := by
  simp only [normSq, mul]; ring

theorem magnitude_of_unit (q : Quaternion) (h : q.normSq = 1) : q.magnitude = 1 := by
  rw [magnitude, h, Real.sqrt_one]

theorem normalize_of_unit (q : Quaternion) (h : q.normSq = 1) : q.normalize = q := by
  have h1 : q.magnitude = 1 := q.magnitude_of_unit h
  rw [normalize, h1]
  simp

theorem normSq_normalize (q : Quaternion) (h : q.normSq ≠ 0) : q.normalize.normSq = 1 := by
  have hm : q.magnitude ≠ 0 := by
    rw [magnitude]
    exact (Real.sqrt_ne_zero q.normSq_nonneg).mpr h
  have hsq : q.magnitude * q.magnitude = q.normSq := Real.mul_self_sqrt q.normSq_nonneg
  rw [normalize, if_neg hm]
  simp only [normSq]
  rw [div_mul_div_comm, div_mul_div_comm, div_mul_div_comm, div_mul_div_comm,
    div_add_div_same, div_add_div_same, div_add_div_same, hsq]
  exact div_self h

/-- Rotation of a vector by a quaternion (the sandwich product `q v q̄`),
modelling from the spec the library operation `Vec3F * Quaternion`
(rotating a vector by a unit quaternion). -/
noncomputable def rotateVec (q : Quaternion) (v : Vec3F) : Vec3F :=
  let r := q.mul ⟨0, v.x, v.y, v.z⟩ |>.mul q.conj
  ⟨r.X, r.Y, r.Z⟩

theorem rotateVec_lengthSq (q : Quaternion) (v : Vec3F) :
    (q.rotateVec v).lengthSq = q.normSq ^ 2 * v.lengthSq := by
  simp only [rotateVec, Vec3F.lengthSq, mul, conj, normSq]
  ring

theorem rotateVec_dot (q : Quaternion) (v w : Vec3F) :
    (q.rotateVec v).Dot (q.rotateVec w) = q.normSq ^ 2 * v.Dot w := by
  simp only [rotateVec, Vec3F.Dot, mul, conj, normSq]
  ring

theorem rotateVec_one (v : Vec3F) : rotateVec ⟨1, 0, 0, 0⟩ v = v := by
  simp only [rotateVec, mul, conj]
  ext <;> simp

/-- Modelled from the spec: `Quaternion::fromAngleAxis`, the standard axis-angle
construction (the axis is expected to be unit length). -/
noncomputable def fromAngleAxis (angle : ℝ) (axis : Vec3F) : Quaternion :=
  ⟨Real.cos (angle / 2), axis.x * Real.sin (angle / 2),
   axis.y * Real.sin (angle / 2), axis.z * Real.sin (angle / 2)⟩

theorem normSq_fromAngleAxis (angle : ℝ) (axis : Vec3F) (h : axis.lengthSq = 1) :
    (fromAngleAxis angle axis).normSq = 1 := by
  simp only [fromAngleAxis, normSq, Vec3F.lengthSq] at *
  nlinarith [Real.sin_sq_add_cos_sq (angle / 2)]

/-- Modelled from the spec: `Quaternion::fromRotationFromTo` builds the shortest
rotation from `vfrom` to `vto` with its angle scaled by `damping`, and signals an
invalid (NaN) result in the degenerate antiparallel case; the invalid result is
modelled as `none`, matching the caller's `isnan` check. -/
noncomputable def fromRotationFromTo (vfrom vto : Vec3F) (damping : ℝ) : Option Quaternion :=
  if (vfrom.Cross vto).lengthSq = 0 ∧ vfrom.Dot vto < 0 then none
  else some (fromAngleAxis (Real.arccos (vfrom.Dot vto) * damping) (vfrom.Cross vto).Normalize)

theorem normSq_fromRotationFromTo (vfrom vto : Vec3F) (damping : ℝ)
    (h1 : vfrom.lengthSq = 1) (h2 : vto.lengthSq = 1) (q : Quaternion)
    (hq : fromRotationFromTo vfrom vto damping = some q) : q.normSq = 1 := by
  rw [fromRotationFromTo] at hq
  split at hq
  · exact absurd hq (by simp)
  · rename_i hcond
    by_cases hcross : (vfrom.Cross vto).lengthSq = 0
    · have hdot : ¬ vfrom.Dot vto < 0 := fun hlt => hcond ⟨hcross, hlt⟩
      have hlag := vfrom.lengthSq_Cross vto
      rw [hcross, h1, h2] at hlag
      have hdot1 : vfrom.Dot vto = 1 := by nlinarith
      have : q = fromAngleAxis (Real.arccos 1 * damping) (vfrom.Cross vto).Normalize := by
        rw [← hdot1]; exact (Option.some_injective _ hq).symm
      rw [this, Real.arccos_one, zero_mul]
      simp [fromAngleAxis, normSq]
    · have : q = fromAngleAxis (Real.arccos (vfrom.Dot vto) * damping)
          (vfrom.Cross vto).Normalize := (Option.some_injective _ hq).symm
      rw [this]
      exact normSq_fromAngleAxis _ _ ((vfrom.Cross vto).lengthSq_Normalize hcross)

/-- Modelled from the spec: `Quaternion::fromDirectionAndRoll` builds a unit
quaternion whose body-forward axis `(1,0,0)` aligns with `direction` and whose
roll about that axis is `roll`; the alignment uses the half-vector
shortest-rotation construction with a 180-degree-about-Y fallback in the
degenerate antiparallel case. -/
noncomputable def fromDirectionAndRoll (direction : Vec3F) (roll : ℝ) : Quaternion :=
  let d := direction.Normalize
  let cand : Quaternion := ⟨1 + d.x, 0, -d.z, d.y⟩
  let align := if cand.normSq = 0 then (⟨0, 0, 1, 0⟩ : Quaternion) else cand.normalize
  align.mul (fromAngleAxis roll ⟨1, 0, 0⟩)

theorem normSq_fromDirectionAndRoll (direction : Vec3F) (roll : ℝ) :
    (fromDirectionAndRoll direction roll).normSq = 1 := by
  rw [fromDirectionAndRoll]
  have haxis : (⟨1, 0, 0⟩ : Vec3F).lengthSq = 1 := by simp [Vec3F.lengthSq]
  rw [normSq_mul, normSq_fromAngleAxis roll _ haxis, mul_one]
  split
  · simp [normSq]
  · rename_i hne
    exact normSq_normalize _ hne

theorem rotateVec_fromAngleAxis_Y (t : ℝ) (v : Vec3F) :
    (fromAngleAxis t ⟨0, 1, 0⟩).rotateVec v =
      ⟨v.x * Real.cos t + v.z * Real.sin t, v.y,
       -v.x * Real.sin t + v.z * Real.cos t⟩ := by
  have h2 : (2 : ℝ) * (t / 2) = t := by ring
  have hc : Real.cos t = Real.cos (t / 2) ^ 2 - Real.sin (t / 2) ^ 2 := by
    have := Real.cos_two_mul (t / 2)
    rw [h2] at this
    have hp := Real.sin_sq_add_cos_sq (t / 2)
    linarith
  have hs : Real.sin t = 2 * Real.sin (t / 2) * Real.cos (t / 2) := by
    have := Real.sin_two_mul (t / 2)
    rw [h2] at this
    exact this
  have hp := Real.sin_sq_add_cos_sq (t / 2)
  simp only [rotateVec, fromAngleAxis, mul, conj]
  ext
  · simp only; rw [hc, hs]; ring
  · simp only; linear_combination (v.y * hp)
  · simp only; rw [hc, hs]; ring

theorem rotateVec_fromAngleAxis_Z (t : ℝ) (v : Vec3F) :
    (fromAngleAxis t ⟨0, 0, 1⟩).rotateVec v =
      ⟨v.x * Real.cos t - v.y * Real.sin t,
       v.x * Real.sin t + v.y * Real.cos t, v.z⟩ := by
  have h2 : (2 : ℝ) * (t / 2) = t := by ring
  have hc : Real.cos t = Real.cos (t / 2) ^ 2 - Real.sin (t / 2) ^ 2 := by
    have := Real.cos_two_mul (t / 2)
    rw [h2] at this
    have hp := Real.sin_sq_add_cos_sq (t / 2)
    linarith
  have hs : Real.sin t = 2 * Real.sin (t / 2) * Real.cos (t / 2) := by
    have := Real.sin_two_mul (t / 2)
    rw [h2] at this
    exact this
  have hp := Real.sin_sq_add_cos_sq (t / 2)
  simp only [rotateVec, fromAngleAxis, mul, conj]
  ext
  · simp only; rw [hc, hs]; ring
  · simp only; rw [hc, hs]; ring
  · simp only; linear_combination (v.z * hp)

end Quaternion

/-- The data printed by `CheckLanding`'s `sprintf` into `m_landing_info`:
per-criterion values and OK/FAIL flags plus the overall LANDED/CRASH verdict.
The string is modelled by this record of the formatted data; the empty string
is modelled by `none` at the `Option LandingMsg` type. -/
structure LandingMsg where
  status : Bool
  speed : ℝ
  ok_speed : Bool
  sink : ℝ
  ok_sink : Bool
  pitch : ℝ
  ok_pitch : Bool
  roll : ℝ
  ok_roll : Bool
  ok_runway : Bool

/-- The mutable state of `class Sample` relevant to the flight model
(`app_flightsim.cpp`, lines 76-91).  Fields keep the source names. -/
structure FlightState where
  m_pos : Vec3F
  m_vel : Vec3F
  m_orient : Quaternion
  m_roll : ℝ
  m_pitch : ℝ
  m_pitch_adv : ℝ
  m_power : ℝ
  m_lift : Vec3F
  m_thrust : Vec3F
  m_drag : Vec3F
  m_force : Vec3F
  m_accel : Vec3F
  m_speed : ℝ
  m_max_speed : ℝ
  m_aoa : ℝ
  m_DT : ℝ
  m_flaps : ℝ
  m_wind : Vec3F
  m_runway_length : ℝ
  m_runway_width : ℝ
  m_landing_info : Option LandingMsg
  m_landing_status : Bool
  m_airborn : Int

/-- Body forward axis: `fwd = Vec3F(1,0,0) * m_orient` (line 222). -/
noncomputable def bodyFwd (s : FlightState) : Vec3F := s.m_orient.rotateVec ⟨1, 0, 0⟩

/-- Body up axis: `up = Vec3F(0,1,0) * m_orient` (line 223). -/
noncomputable def bodyUp (s : FlightState) : Vec3F := s.m_orient.rotateVec ⟨0, 1, 0⟩

/-- Body right axis: `right = Vec3F(0,0,1) * m_orient` (line 224). -/
noncomputable def bodyRight (s : FlightState) : Vec3F := s.m_orient.rotateVec ⟨0, 0, 1⟩

/-- `m_speed = m_vel.Length()` before the clamps (line 227). -/
noncomputable def speed0 (s : FlightState) : ℝ := s.m_vel.Length

/-- `m_speed` after the two clamps of lines 229-230. -/
noncomputable def speedOf (s : FlightState) : ℝ :=
  let s1 := if speed0 s < 0 then 0 else speed0 s
  if s1 > s.m_max_speed then s.m_max_speed else s1

/-- `vaxis = m_vel / m_speed` (line 228, using the unclamped speed). -/
noncomputable def vaxisRaw (s : FlightState) : Vec3F := s.m_vel.sdiv (speed0 s)

/-- `vaxis` after the zero-speed fallback `if (m_speed==0) vaxis = fwd` (line 231). -/
noncomputable def vaxisPre (s : FlightState) : Vec3F :=
  if speedOf s = 0 then bodyFwd s else vaxisRaw s

/-- `m_pitch_adv` after lines 235-236: the ground branch assigns `1.1` and the
blend `m_pitch_adv*0.9995 + m_pitch*0.005` is applied unconditionally after it. -/
noncomputable def pitchAdvOf (s : FlightState) : ℝ :=
  (if s.m_pos.y ≤ 0 then 1.1 else s.m_pitch_adv) * 0.9995 + s.m_pitch * 0.005

/-- `ctrl_pitch.fromAngleAxis ( m_pitch_adv*0.0001, Vec3F(0,0,1) * m_orient )` (line 237). -/
noncomputable def ctrlPitch (s : FlightState) : Quaternion :=
  Quaternion.fromAngleAxis (pitchAdvOf s * 0.0001) (bodyRight s)

/-- `vaxis *= ctrl_pitch; vaxis.Normalize()` (line 238). -/
noncomputable def vaxisOf (s : FlightState) : Vec3F :=
  ((ctrlPitch s).rotateVec (vaxisPre s)).Normalize

/-- `m_vel = vaxis * m_speed` (line 240). -/
noncomputable def velMid (s : FlightState) : Vec3F := (vaxisOf s).smul (speedOf s)

/-- `flap_lift = m_flaps * cos(m_speed/m_max_speed * (PI/2.0))` (line 247). -/
noncomputable def flapLift (s : FlightState) : ℝ :=
  s.m_flaps * Real.cos (speedOf s / s.m_max_speed * (Real.pi / 2))

/-- `wing_area = 1 + m_flaps` (line 248). -/
noncomputable def wingArea (s : FlightState) : ℝ := 1 + s.m_flaps

/-- `airflow = m_speed + m_wind.Dot ( vaxis*-1.0f )` (line 251). -/
noncomputable def airflowOf (s : FlightState) : ℝ :=
  speedOf s + s.m_wind.Dot ((vaxisOf s).smul (-1))

/-- `dynamic_pressure = 0.5f * p * airflow * airflow`, `p = 1.225` (lines 252-253). -/
noncomputable def dynPressure (s : FlightState) : ℝ :=
  0.5 * 1.225 * airflowOf s * airflowOf s

/-- Radians-to-degrees factor `RADtoDEG`. -/
noncomputable def RADtoDEG : ℝ := 180 / Real.pi

/-- `m_aoa = acos( fwd.Dot( vaxis ) )*RADtoDEG + 1` (line 256).  The source's
`isnan` fallback (line 257) cannot fire here since `Real.arccos` is total. -/
noncomputable def aoaOf (s : FlightState) : ℝ :=
  Real.arccos ((bodyFwd s).Dot (vaxisOf s)) * RADtoDEG + 1

/-- `CL = sin( m_aoa * 0.2) + flap_lift` (line 258). -/
noncomputable def CLOf (s : FlightState) : ℝ := Real.sin (aoaOf s * 0.2) + flapLift s

/-- `L = CL * dynamic_pressure * m_LiftFactor * 0.5`, `m_LiftFactor = 0.0001` (line 259). -/
noncomputable def liftScalar (s : FlightState) : ℝ := CLOf s * dynPressure s * 0.0001 * 0.5

/-- `m_lift = up * L` (line 260). -/
noncomputable def liftOf (s : FlightState) : Vec3F := (bodyUp s).smul (liftScalar s)

/-- `m_drag = vaxis * dynamic_pressure * m_DragFactor * -1.0f * wing_area`,
`m_DragFactor = 0.0001` (line 264). -/
noncomputable def dragOf (s : FlightState) : Vec3F :=
  (vaxisOf s).smul (dynPressure s * 0.0001 * (-1) * wingArea s)

/-- `m_thrust = fwd * m_power` (line 268). -/
noncomputable def thrustOf (s : FlightState) : Vec3F := (bodyFwd s).smul s.m_power

/-- `m_force = 0; m_force += m_lift; m_force += m_drag; m_force += m_thrust`. -/
noncomputable def forceOf (s : FlightState) : Vec3F := liftOf s + dragOf s + thrustOf s

/-- Orientation after the directional-stability update (lines 277-282):
`angvel.fromRotationFromTo(fwd, vaxis, 0.001); if (!isnan(angvel.X)) { m_orient *= angvel; m_orient.normalize(); }`. -/
noncomputable def orientMid (s : FlightState) : Quaternion :=
  match Quaternion.fromRotationFromTo (bodyFwd s) (vaxisOf s) 0.001 with
  | none => s.m_orient
  | some q => (s.m_orient.mul q).normalize

/-- Orientation after the roll-control update (lines 285-287):
`ctrl_roll.fromAngleAxis ( m_roll*0.001, Vec3F(1,0,0) * m_orient ); m_orient *= ctrl_roll; m_orient.normalize()`. -/
noncomputable def orientRolled (s : FlightState) : Quaternion :=
  ((orientMid s).mul (Quaternion.fromAngleAxis (s.m_roll * 0.001)
    ((orientMid s).rotateVec ⟨1, 0, 0⟩))).normalize

/-- `m_accel = m_force / mass; m_accel += (0,-9.8,0); m_accel += m_wind * p * 0.1f`
(lines 290-294, `mass = 0.1`, `p = 1.225`). -/
noncomputable def accelOf (s : FlightState) : Vec3F :=
  (forceOf s).sdiv 0.1 + (⟨0, -9.8, 0⟩ : Vec3F) + s.m_wind.smul (1.225 * 0.1)

/-- `m_pos += m_vel * m_DT` (line 296, using the reassigned `m_vel` of line 240). -/
noncomputable def posNew (s : FlightState) : Vec3F := s.m_pos + (velMid s).smul s.m_DT

/-- The ground-contact test of line 299: `m_pos.y <= 0.00001` after integration. -/
def groundHit (s : FlightState) : Prop := (posNew s).y ≤ 0.00001

/-- `ctrl_roll.fromAngleAxis ( -m_roll*0.001, Vec3F(0,1,0) )` (line 309):
on the ground, left/right input acts as rudder about the world up axis. -/
noncomputable def groundRudder (s : FlightState) : Quaternion :=
  Quaternion.fromAngleAxis (-s.m_roll * 0.001) ⟨0, 1, 0⟩

/-- `Sample::CheckLanding` (lines 176-209), parameterized by the missing
library's Euler extraction `toEuler`.  When `m_airborn > 2000` the five landing
criteria are graded and the verdict recorded; `m_airborn` is reset to 0 in all
cases. -/
noncomputable def CheckLanding (toEuler : Quaternion → Vec3F) (s : FlightState) :
    FlightState :=
  if s.m_airborn > 2000 then
    let angs := toEuler s.m_orient
    let ok_speed := decide (s.m_speed < 80)
    let ok_sink := decide (|s.m_vel.y| < 2)
    let ok_pitch := decide (|angs.y| < 5)
    let ok_roll := decide (|angs.x| < 5)
    let ok_runway := decide (s.m_pos.x > -s.m_runway_width) &&
      decide (s.m_pos.x < s.m_runway_width) &&
      decide (s.m_pos.z > -s.m_runway_length) &&
      decide (s.m_pos.z < s.m_runway_length)
    let status := ok_speed && ok_sink && ok_pitch && ok_roll && ok_runway
    { s with
      m_landing_status := status,
      m_landing_info := some
        { status := status, speed := s.m_speed, ok_speed := ok_speed,
          sink := s.m_vel.y, ok_sink := ok_sink, pitch := |angs.y|,
          ok_pitch := ok_pitch, roll := |angs.x|, ok_roll := ok_roll,
          ok_runway := ok_runway },
      m_airborn := 0 }
  else { s with m_airborn := 0 }

/-- `Sample::Advance` (lines 212-321), parameterized by the missing library's
Euler extraction `toEuler` (used only inside `CheckLanding`). -/
noncomputable def Advance (toEuler : Quaternion → Vec3F) (s : FlightState) :
    FlightState :=
  let s1 : FlightState :=
    { s with
      m_speed := speedOf s, m_vel := velMid s, m_pos := posNew s,
      m_orient := orientRolled s, m_pitch_adv := pitchAdvOf s, m_aoa := aoaOf s,
      m_lift := liftOf s, m_drag := dragOf s, m_thrust := thrustOf s,
      m_force := forceOf s, m_accel := accelOf s }
  if (posNew s).y ≤ 0.00001 then
    -- ground condition (lines 299-312)
    let s2 := CheckLanding toEuler s1
    { s2 with
      m_pos := ⟨(posNew s).x, 0, (posNew s).z⟩,
      m_accel := accelOf s + (⟨0, 9.8, 0⟩ : Vec3F),
      m_orient := ((Quaternion.fromDirectionAndRoll
          ⟨(bodyFwd s).x, 0, (bodyFwd s).z⟩ 0).mul (groundRudder s)).normalize,
      m_vel := (groundRudder s).rotateVec
          ((⟨(velMid s).x, 0, (velMid s).z⟩ : Vec3F).smul 0.9999) +
        (accelOf s + (⟨0, 9.8, 0⟩ : Vec3F)).smul s.m_DT }
  else
    -- airborne branch (lines 313-316) and final velocity integration (line 319)
    { s1 with
      m_airborn := s.m_airborn + 1,
      m_landing_info := if s.m_airborn + 1 > 3200 then none else s.m_landing_info,
      m_vel := velMid s + (accelOf s).smul s.m_DT }

/-- The control inputs supplied by the host between two `Advance` calls. -/
structure Controls where
  roll : ℝ
  pitch : ℝ
  power : ℝ
  flaps : ℝ

/-- Write the host-supplied control inputs into the state. -/
noncomputable def setControls (s : FlightState) (c : Controls) : FlightState :=
  { s with m_roll := c.roll, m_pitch := c.pitch, m_power := c.power, m_flaps := c.flaps }

/-- The initial state built by `Sample::init` (lines 116-133); fields the
source leaves uninitialized (`m_speed`, `m_aoa`, the force vectors,
`m_landing_status`) are modelled as zero/`false`, and the empty landing
message as `none`. -/
noncomputable def initState : FlightState :=
  { m_pos := ⟨0, 10, 0⟩, m_vel := ⟨0, 0, 200⟩, m_airborn := 1, m_roll := 0,
    m_pitch := 0, m_power := 3, m_pitch_adv := 0, m_accel := ⟨0, 0, 0⟩,
    m_orient := Quaternion.fromDirectionAndRoll ⟨0, 0, 1⟩ 0, m_flaps := 0,
    m_max_speed := 500, m_DT := 0.001, m_runway_length := 2000,
    m_runway_width := 50, m_wind := ⟨0, 0, 0⟩, m_lift := ⟨0, 0, 0⟩,
    m_thrust := ⟨0, 0, 0⟩, m_drag := ⟨0, 0, 0⟩, m_force := ⟨0, 0, 0⟩,
    m_speed := 0, m_aoa := 0, m_landing_info := none, m_landing_status := false }

/-- A simulation run: starting from `initState`, each tick writes the host's
control inputs and calls `Advance` once. -/
noncomputable def run (toEuler : Quaternion → Vec3F) (l : List Controls) : FlightState :=
  l.foldl (fun s c => Advance toEuler (setControls s c)) initState

section Projections

variable (te : Quaternion → Vec3F) (s : FlightState)

theorem CheckLanding_m_pitch_adv : (CheckLanding te s).m_pitch_adv = s.m_pitch_adv := by
  rw [CheckLanding]; split <;> rfl

theorem CheckLanding_m_airborn : (CheckLanding te s).m_airborn = 0 := by
  rw [CheckLanding]; split <;> rfl

theorem CheckLanding_const (h : ¬ s.m_airborn > 2000) :
    (CheckLanding te s).m_landing_info = s.m_landing_info ∧
      (CheckLanding te s).m_landing_status = s.m_landing_status := by
  rw [CheckLanding, if_neg h]
  exact ⟨rfl, rfl⟩

theorem Advance_m_pitch_adv : (Advance te s).m_pitch_adv = pitchAdvOf s := by
  rw [Advance]
  split
  · rw [CheckLanding]; split <;> rfl
  · rfl

theorem Advance_m_speed : (Advance te s).m_speed = speedOf s := by
  rw [Advance]
  split
  · rw [CheckLanding]; split <;> rfl
  · rfl

theorem Advance_m_aoa : (Advance te s).m_aoa = aoaOf s := by
  rw [Advance]
  split
  · rw [CheckLanding]; split <;> rfl
  · rfl

theorem Advance_m_lift : (Advance te s).m_lift = liftOf s := by
  rw [Advance]
  split
  · rw [CheckLanding]; split <;> rfl
  · rfl

theorem Advance_m_drag : (Advance te s).m_drag = dragOf s := by
  rw [Advance]
  split
  · rw [CheckLanding]; split <;> rfl
  · rfl

theorem Advance_m_thrust : (Advance te s).m_thrust = thrustOf s := by
  rw [Advance]
  split
  · rw [CheckLanding]; split <;> rfl
  · rfl

theorem Advance_m_force : (Advance te s).m_force = forceOf s := by
  rw [Advance]
  split
  · rw [CheckLanding]; split <;> rfl
  · rfl

theorem Advance_m_wind : (Advance te s).m_wind = s.m_wind := by
  rw [Advance]
  split
  · rw [CheckLanding]; split <;> rfl
  · rfl

theorem Advance_m_max_speed : (Advance te s).m_max_speed = s.m_max_speed := by
  rw [Advance]
  split
  · rw [CheckLanding]; split <;> rfl
  · rfl

theorem Advance_m_DT : (Advance te s).m_DT = s.m_DT := by
  rw [Advance]
  split
  · rw [CheckLanding]; split <;> rfl
  · rfl

theorem Advance_ground (h : groundHit s) :
    (Advance te s).m_pos = ⟨(posNew s).x, 0, (posNew s).z⟩ ∧
    (Advance te s).m_vel = (groundRudder s).rotateVec
        ((⟨(velMid s).x, 0, (velMid s).z⟩ : Vec3F).smul 0.9999) +
        (accelOf s + (⟨0, 9.8, 0⟩ : Vec3F)).smul s.m_DT ∧
    (Advance te s).m_accel = accelOf s + (⟨0, 9.8, 0⟩ : Vec3F) ∧
    (Advance te s).m_orient = ((Quaternion.fromDirectionAndRoll
        ⟨(bodyFwd s).x, 0, (bodyFwd s).z⟩ 0).mul (groundRudder s)).normalize ∧
    (Advance te s).m_airborn = 0 := by
  have h' : (posNew s).y ≤ 0.00001 := h
  rw [Advance, if_pos h']
  refine ⟨rfl, rfl, rfl, rfl, ?_⟩
  exact CheckLanding_m_airborn te _

theorem Advance_air (h : ¬ groundHit s) :
    (Advance te s).m_pos = posNew s ∧
    (Advance te s).m_vel = velMid s + (accelOf s).smul s.m_DT ∧
    (Advance te s).m_accel = accelOf s ∧
    (Advance te s).m_orient = orientRolled s ∧
    (Advance te s).m_airborn = s.m_airborn + 1 ∧
    (Advance te s).m_landing_info =
      (if s.m_airborn + 1 > 3200 then none else s.m_landing_info) ∧
    (Advance te s).m_landing_status = s.m_landing_status := by
  have h' : ¬ (posNew s).y ≤ 0.00001 := h
  rw [Advance, if_neg h']
  exact ⟨rfl, rfl, rfl, rfl, rfl, rfl, rfl⟩

theorem Advance_ground_landing (h : groundHit s) (h2 : ¬ s.m_airborn > 2000) :
    (Advance te s).m_landing_info = s.m_landing_info ∧
      (Advance te s).m_landing_status = s.m_landing_status := by
  have h' : (posNew s).y ≤ 0.00001 := h
  rw [Advance, if_pos h']
  exact CheckLanding_const te _ h2

end Projections

section Invariants

variable (te : Quaternion → Vec3F) (s : FlightState)

theorem lengthSq_e1 : (⟨1, 0, 0⟩ : Vec3F).lengthSq = 1 := by simp [Vec3F.lengthSq]

theorem lengthSq_e2 : (⟨0, 1, 0⟩ : Vec3F).lengthSq = 1 := by simp [Vec3F.lengthSq]

theorem lengthSq_e3 : (⟨0, 0, 1⟩ : Vec3F).lengthSq = 1 := by simp [Vec3F.lengthSq]

theorem bodyFwd_unit (h : s.m_orient.normSq = 1) : (bodyFwd s).lengthSq = 1 := by
  rw [bodyFwd, Quaternion.rotateVec_lengthSq, h, lengthSq_e1]; norm_num

theorem bodyUp_unit (h : s.m_orient.normSq = 1) : (bodyUp s).lengthSq = 1 := by
  rw [bodyUp, Quaternion.rotateVec_lengthSq, h, lengthSq_e2]; norm_num

theorem bodyRight_unit (h : s.m_orient.normSq = 1) : (bodyRight s).lengthSq = 1 := by
  rw [bodyRight, Quaternion.rotateVec_lengthSq, h, lengthSq_e3]; norm_num

theorem bodyFwd_dot_bodyUp (h : s.m_orient.normSq = 1) :
    (bodyFwd s).Dot (bodyUp s) = 0 := by
  rw [bodyFwd, bodyUp, Quaternion.rotateVec_dot, h]
  simp [Vec3F.Dot]

theorem speed0_nonneg : 0 ≤ speed0 s := Real.sqrt_nonneg _

theorem speedOf_eq : speedOf s =
    if speed0 s > s.m_max_speed then s.m_max_speed else speed0 s := by
  rw [speedOf, if_neg (not_lt.mpr (speed0_nonneg s))]

theorem speedOf_nonneg (hmax : 0 ≤ s.m_max_speed) : 0 ≤ speedOf s := by
  rw [speedOf_eq]
  split
  · exact hmax
  · exact speed0_nonneg s

theorem speedOf_le_max : speedOf s ≤ s.m_max_speed := by
  rw [speedOf_eq]
  split
  · exact le_rfl
  · rename_i hgt
    exact not_lt.mp hgt

theorem speed0_eq_zero_of_speedOf (hmax : 0 ≤ s.m_max_speed) (h : speedOf s ≠ 0) :
    speed0 s ≠ 0 := by
  intro h0
  apply h
  rw [speedOf_eq, h0, if_neg (not_lt.mpr hmax)]

theorem vaxisPre_unit (h : s.m_orient.normSq = 1) (hmax : 0 ≤ s.m_max_speed) :
    (vaxisPre s).lengthSq = 1 := by
  rw [vaxisPre]
  split
  · exact bodyFwd_unit s h
  · rename_i hne
    have hs0 : speed0 s ≠ 0 := speed0_eq_zero_of_speedOf s hmax hne
    have hlsq : s.m_vel.lengthSq ≠ 0 := by
      intro hz
      exact hs0 (by rw [speed0, Vec3F.Length, hz, Real.sqrt_zero])
    rw [vaxisRaw, Vec3F.lengthSq_sdiv, speed0, sq, Vec3F.Length_sq]
    exact div_self hlsq

theorem ctrlPitch_unit (h : s.m_orient.normSq = 1) : (ctrlPitch s).normSq = 1 :=
  Quaternion.normSq_fromAngleAxis _ _ (bodyRight_unit s h)

theorem vaxisOf_unit (h : s.m_orient.normSq = 1) (hmax : 0 ≤ s.m_max_speed) :
    (vaxisOf s).lengthSq = 1 := by
  rw [vaxisOf]
  have hrot : ((ctrlPitch s).rotateVec (vaxisPre s)).lengthSq = 1 := by
    rw [Quaternion.rotateVec_lengthSq, ctrlPitch_unit s h, vaxisPre_unit s h hmax]
    norm_num
  rw [Vec3F.Normalize_of_unit _ hrot]
  exact hrot

theorem groundRudder_unit : (groundRudder s).normSq = 1 :=
  Quaternion.normSq_fromAngleAxis _ _ lengthSq_e2

theorem orientMid_unit (h : s.m_orient.normSq = 1) (hmax : 0 ≤ s.m_max_speed) :
    (orientMid s).normSq = 1 := by
  rcases hq : Quaternion.fromRotationFromTo (bodyFwd s) (vaxisOf s) 0.001 with _ | q
  · rw [orientMid, hq]
    exact h
  · have hq1 : q.normSq = 1 := Quaternion.normSq_fromRotationFromTo _ _ _
      (bodyFwd_unit s h) (vaxisOf_unit s h hmax) q hq
    have hu : (s.m_orient.mul q).normSq = 1 := by
      rw [Quaternion.normSq_mul, h, hq1]; norm_num
    rw [orientMid, hq]
    show ((s.m_orient.mul q).normalize).normSq = 1
    rw [Quaternion.normalize_of_unit _ hu]
    exact hu

theorem orientRolled_unit (h : s.m_orient.normSq = 1) (hmax : 0 ≤ s.m_max_speed) :
    (orientRolled s).normSq = 1 := by
  rw [orientRolled]
  have hmid := orientMid_unit s h hmax
  have haxis : ((orientMid s).rotateVec ⟨1, 0, 0⟩).lengthSq = 1 := by
    rw [Quaternion.rotateVec_lengthSq, hmid, lengthSq_e1]; norm_num
  have hroll : (Quaternion.fromAngleAxis (s.m_roll * 0.001)
      ((orientMid s).rotateVec ⟨1, 0, 0⟩)).normSq = 1 :=
    Quaternion.normSq_fromAngleAxis _ _ haxis
  have hu : ((orientMid s).mul (Quaternion.fromAngleAxis (s.m_roll * 0.001)
      ((orientMid s).rotateVec ⟨1, 0, 0⟩))).normSq = 1 := by
    rw [Quaternion.normSq_mul, hmid, hroll]; norm_num
  rw [Quaternion.normalize_of_unit _ hu]
  exact hu

/-- Unit orientation is preserved by every `Advance` call, for any control
inputs: every quaternion composed onto `m_orient` is unit length and every
composition is followed by `normalize`. -/
theorem Advance_orient_unit (h : s.m_orient.normSq = 1) (hmax : 0 ≤ s.m_max_speed) :
    ((Advance te s).m_orient).normSq = 1 := by
  by_cases hg : groundHit s
  · rw [(Advance_ground te s hg).2.2.2.1]
    have hdir := Quaternion.normSq_fromDirectionAndRoll
      (⟨(bodyFwd s).x, 0, (bodyFwd s).z⟩ : Vec3F) 0
    have hprod : ((Quaternion.fromDirectionAndRoll
        ⟨(bodyFwd s).x, 0, (bodyFwd s).z⟩ 0).mul (groundRudder s)).normSq = 1 := by
      rw [Quaternion.normSq_mul, hdir, groundRudder_unit]; norm_num
    rw [Quaternion.normalize_of_unit _ hprod]
    exact hprod
  · rw [(Advance_air te s hg).2.2.2.1]
    exact orientRolled_unit s h hmax

/-- One step of the pitch-authority accumulator stays in `[-10, 10]` when the
pitch input is in `[-1, 1]`. -/
theorem pitchAdvOf_bound (h1 : |s.m_pitch| ≤ 1) (h2 : |s.m_pitch_adv| ≤ 10) :
    |pitchAdvOf s| ≤ 10 := by
  rw [pitchAdvOf]
  rw [abs_le] at h1 h2 ⊢
  obtain ⟨ha, hb⟩ := h1
  obtain ⟨hc, hd⟩ := h2
  split
  · constructor <;> nlinarith
  · constructor <;> nlinarith

end Invariants

namespace Vec3F

theorem add_Dot (a b c : Vec3F) : (a + b).Dot c = a.Dot c + b.Dot c := by
  simp only [Dot, add_x, add_y, add_z]; ring

theorem smul_Dot (a c : Vec3F) (t : ℝ) : (a.smul t).Dot c = t * (a.Dot c) := by
  simp only [Dot, smul_x, smul_y, smul_z]; ring

theorem sdiv_Dot (a c : Vec3F) (t : ℝ) : (a.sdiv t).Dot c = (a.Dot c) / t := by
  simp only [Dot, sdiv_x, sdiv_y, sdiv_z]; ring

theorem Dot_comm (a b : Vec3F) : a.Dot b = b.Dot a := by
  simp only [Dot]; ring

theorem lengthSq_add (a b : Vec3F) :
    (a + b).lengthSq = a.lengthSq + 2 * (a.Dot b) + b.lengthSq := by
  simp only [lengthSq, Dot, add_x, add_y, add_z]; ring

theorem Dot_self (a : Vec3F) : a.Dot a = a.lengthSq := by
  simp only [Dot, lengthSq]

theorem Dot_le_half (a b : Vec3F) : a.Dot b ≤ (a.lengthSq + b.lengthSq) / 2 := by
  simp only [Dot, lengthSq]
  nlinarith [sq_nonneg (a.x - b.x), sq_nonneg (a.y - b.y), sq_nonneg (a.z - b.z)]

theorem sum4_sq_le (a b c d : ℝ) :
    (a + b + c + d) * (a + b + c + d) ≤ 4 * (a * a + b * b + c * c + d * d) := by
  nlinarith [sq_nonneg (a - b), sq_nonneg (a - c), sq_nonneg (a - d),
    sq_nonneg (b - c), sq_nonneg (b - d), sq_nonneg (c - d)]

theorem lengthSq_add4_le (a b c d : Vec3F) :
    (a + b + c + d).lengthSq ≤
      4 * (a.lengthSq + b.lengthSq + c.lengthSq + d.lengthSq) := by
  simp only [lengthSq, add_x, add_y, add_z]
  have hx := sum4_sq_le a.x b.x c.x d.x
  have hy := sum4_sq_le a.y b.y c.y d.y
  have hz := sum4_sq_le a.z b.z c.z d.z
  linarith

theorem sq_comp_le_lengthSq_x (a : Vec3F) : a.x ^ 2 ≤ a.lengthSq := by
  simp only [lengthSq]; nlinarith [sq_nonneg a.y, sq_nonneg a.z]

theorem sq_comp_le_lengthSq_y (a : Vec3F) : a.y ^ 2 ≤ a.lengthSq := by
  simp only [lengthSq]; nlinarith [sq_nonneg a.x, sq_nonneg a.z]

end Vec3F

set_option maxHeartbeats 4000000 in
/-- Bessel inequality in coordinates: the projections onto two orthonormal
directions are bounded by the squared length. -/
theorem bessel_scalar (ux uy uz fx fy fz xx xy xz : ℝ)
    (hu : ux * ux + uy * uy + uz * uz = 1)
    (hf : fx * fx + fy * fy + fz * fz = 1)
    (hof : ux * fx + uy * fy + uz * fz = 0) :
    (ux * xx + uy * xy + uz * xz) ^ 2 + (fx * xx + fy * xy + fz * xz) ^ 2 ≤
      xx * xx + xy * xy + xz * xz := by
  have key : xx * xx + xy * xy + xz * xz - (ux * xx + uy * xy + uz * xz) ^ 2 -
      (fx * xx + fy * xy + fz * xz) ^ 2 =
      (xx - (ux * xx + uy * xy + uz * xz) * ux - (fx * xx + fy * xy + fz * xz) * fx) ^ 2 +
      (xy - (ux * xx + uy * xy + uz * xz) * uy - (fx * xx + fy * xy + fz * xz) * fy) ^ 2 +
      (xz - (ux * xx + uy * xy + uz * xz) * uz - (fx * xx + fy * xy + fz * xz) * fz) ^ 2 := by
    linear_combination (-((ux * xx + uy * xy + uz * xz) ^ 2)) * hu -
      ((fx * xx + fy * xy + fz * xz) ^ 2) * hf -
      2 * (ux * xx + uy * xy + uz * xz) * (fx * xx + fy * xy + fz * xz) * hof
  linarith [key,
    sq_nonneg (xx - (ux * xx + uy * xy + uz * xz) * ux - (fx * xx + fy * xy + fz * xz) * fx),
    sq_nonneg (xy - (ux * xx + uy * xy + uz * xz) * uy - (fx * xx + fy * xy + fz * xz) * fy),
    sq_nonneg (xz - (ux * xx + uy * xy + uz * xz) * uz - (fx * xx + fy * xy + fz * xz) * fz)]

/-- Bessel inequality for `Vec3F`: projections of `x` onto the orthonormal
pair `u`, `f` are bounded by `‖x‖²`. -/
theorem bessel (u f x : Vec3F) (hu : u.lengthSq = 1) (hf : f.lengthSq = 1)
    (hof : u.Dot f = 0) : (u.Dot x) ^ 2 + (f.Dot x) ^ 2 ≤ x.lengthSq := by
  simp only [Vec3F.lengthSq, Vec3F.Dot] at *
  exact bessel_scalar u.x u.y u.z f.x f.y f.z x.x x.y x.z hu hf hof

/-- Two-term Cauchy-Schwarz bound used for the lift/thrust projections. -/
theorem cs_le (b1 b2 c1 c2 X M : ℝ) (hX : 0 ≤ X) (hM : 0 ≤ M)
    (hc : c1 ^ 2 + c2 ^ 2 ≤ X ^ 2) (hcoef : b1 ^ 2 + b2 ^ 2 ≤ M ^ 2) :
    b1 * c1 + b2 * c2 ≤ M * X := by
  have h2 : (b1 * c1 + b2 * c2) ^ 2 ≤ (b1 ^ 2 + b2 ^ 2) * (c1 ^ 2 + c2 ^ 2) := by
    nlinarith [sq_nonneg (b1 * c2 - b2 * c1)]
  have h3 : (b1 ^ 2 + b2 ^ 2) * (c1 ^ 2 + c2 ^ 2) ≤ M ^ 2 * X ^ 2 := by
    have hb : 0 ≤ b1 ^ 2 + b2 ^ 2 := by positivity
    have hcc : 0 ≤ c1 ^ 2 + c2 ^ 2 := by positivity
    nlinarith [mul_le_mul hcoef hc hcc (by positivity : (0:ℝ) ≤ M ^ 2)]
  have h4 : (b1 * c1 + b2 * c2) ^ 2 ≤ (M * X) ^ 2 := by nlinarith [h2, h3]
  exact le_of_sq_le_sq h4 (mul_nonneg hM hX)

theorem Vec3F.Dot_smul_right (a b : Vec3F) (t : ℝ) :
    a.Dot (b.smul t) = t * (a.Dot b) := by
  simp only [Vec3F.Dot, Vec3F.smul_x, Vec3F.smul_y, Vec3F.smul_z]; ring

theorem zero_Dot (a : Vec3F) : (⟨0, 0, 0⟩ : Vec3F).Dot a = 0 := by
  simp [Vec3F.Dot]

section SpeedBound

variable (s : FlightState)

theorem airflow_eq_speed (hw : s.m_wind = ⟨0, 0, 0⟩) : airflowOf s = speedOf s := by
  rw [airflowOf, hw, zero_Dot, add_zero]

theorem dynPressure_eq (hw : s.m_wind = ⟨0, 0, 0⟩) :
    dynPressure s = 0.6125 * speedOf s ^ 2 := by
  rw [dynPressure, airflow_eq_speed s hw]; ring

/-- With zero wind, the acceleration decomposes into components along the body
up axis, the velocity axis, the body forward axis and gravity. -/
theorem accelOf_eq (hw : s.m_wind = ⟨0, 0, 0⟩) :
    accelOf s = (bodyUp s).smul (liftScalar s / 0.1) +
      (vaxisOf s).smul (dynPressure s * 0.0001 * (-1) * wingArea s / 0.1) +
      (bodyFwd s).smul (s.m_power / 0.1) + (⟨0, -9.8, 0⟩ : Vec3F) := by
  rw [accelOf, forceOf, liftOf, dragOf, thrustOf, hw]
  ext <;> simp only [Vec3F.add_x, Vec3F.add_y, Vec3F.add_z, Vec3F.smul_x, Vec3F.smul_y,
    Vec3F.smul_z, Vec3F.sdiv_x, Vec3F.sdiv_y, Vec3F.sdiv_z] <;> ring

theorem flaps_nonneg (hf : s.m_flaps = 0 ∨ s.m_flaps = 1) : 0 ≤ s.m_flaps := by
  rcases hf with h | h <;> rw [h] <;> norm_num

theorem CL_abs_le (hf : s.m_flaps = 0 ∨ s.m_flaps = 1) : |CLOf s| ≤ 1 + s.m_flaps := by
  rw [CLOf, flapLift]
  have hs : |Real.sin (aoaOf s * 0.2)| ≤ 1 :=
    abs_le.mpr ⟨Real.neg_one_le_sin _, Real.sin_le_one _⟩
  have hc : |Real.cos (speedOf s / s.m_max_speed * (Real.pi / 2))| ≤ 1 :=
    abs_le.mpr ⟨Real.neg_one_le_cos _, Real.cos_le_one _⟩
  calc |Real.sin (aoaOf s * 0.2) + s.m_flaps * Real.cos (speedOf s / s.m_max_speed * (Real.pi / 2))|
      ≤ |Real.sin (aoaOf s * 0.2)| +
        |s.m_flaps * Real.cos (speedOf s / s.m_max_speed * (Real.pi / 2))| := abs_add _ _
    _ ≤ 1 + s.m_flaps := by
        rw [abs_mul, abs_of_nonneg (flaps_nonneg s hf)]
        have : s.m_flaps * |Real.cos (speedOf s / s.m_max_speed * (Real.pi / 2))| ≤
            s.m_flaps * 1 := mul_le_mul_of_nonneg_left hc (flaps_nonneg s hf)
        linarith

theorem lift10_abs_le (hw : s.m_wind = ⟨0, 0, 0⟩) (hf : s.m_flaps = 0 ∨ s.m_flaps = 1) :
    |liftScalar s / 0.1| ≤ 0.00030625 * (1 + s.m_flaps) * speedOf s ^ 2 := by
  rw [liftScalar, dynPressure_eq s hw]
  have he : CLOf s * (0.6125 * speedOf s ^ 2) * 0.0001 * 0.5 / 0.1 =
      CLOf s * (0.00030625 * speedOf s ^ 2) := by ring
  rw [he, abs_mul, abs_of_nonneg (by positivity : (0:ℝ) ≤ 0.00030625 * speedOf s ^ 2)]
  have h1 := CL_abs_le s hf
  have h2 : (0:ℝ) ≤ 0.00030625 * speedOf s ^ 2 := by positivity
  nlinarith [abs_nonneg (CLOf s)]

theorem drag10_eq (hw : s.m_wind = ⟨0, 0, 0⟩) :
    dynPressure s * 0.0001 * (-1) * wingArea s / 0.1 =
      -(2 * (0.00030625 * (1 + s.m_flaps) * speedOf s ^ 2)) := by
  rw [dynPressure_eq s hw, wingArea]; ring

/-- Core estimate for the speed invariant, airborne branch: the squared length
of `m_vel` after the final velocity integration stays below `500²`. -/
theorem vel_air_bound (ho : s.m_orient.normSq = 1)
    (hw : s.m_wind = ⟨0, 0, 0⟩) (hms : s.m_max_speed = 500) (hdt : s.m_DT = 0.001)
    (hp0 : 0 ≤ s.m_power) (hp10 : s.m_power ≤ 10)
    (hf : s.m_flaps = 0 ∨ s.m_flaps = 1) :
    (velMid s + (accelOf s).smul s.m_DT).lengthSq ≤ 250000 := by
  have hmax0 : (0:ℝ) ≤ s.m_max_speed := by rw [hms]; norm_num
  have hsp0 : 0 ≤ speedOf s := speedOf_nonneg s hmax0
  have hsp5 : speedOf s ≤ 500 := by
    have := speedOf_le_max s
    rwa [hms] at this
  have hfl0 : 0 ≤ s.m_flaps := flaps_nonneg s hf
  have hfl1 : s.m_flaps ≤ 1 := by rcases hf with h | h <;> rw [h] <;> norm_num
  obtain ⟨B, hB_def⟩ : ∃ B, B = 0.00030625 * (1 + s.m_flaps) * speedOf s ^ 2 := ⟨_, rfl⟩
  have hsp2 : speedOf s ^ 2 ≤ 250000 := by nlinarith only [hsp0, hsp5]
  have hB0 : 0 ≤ B := by
    rw [hB_def]
    have : (0:ℝ) ≤ 1 + s.m_flaps := by linarith
    positivity
  have hBle : B ≤ 153.125 := by
    rw [hB_def]
    nlinarith only [hsp2, hfl0, hfl1, sq_nonneg (speedOf s)]
  have hu1 := bodyUp_unit s ho
  have hf1 := bodyFwd_unit s ho
  have hv1 := vaxisOf_unit s ho hmax0
  have hof : (bodyUp s).Dot (bodyFwd s) = 0 := by
    rw [Vec3F.Dot_comm]; exact bodyFwd_dot_bodyUp s ho
  obtain ⟨l10, hl10_def⟩ : ∃ l10, l10 = liftScalar s / 0.1 := ⟨_, rfl⟩
  obtain ⟨p10, hp10_def⟩ : ∃ p10, p10 = s.m_power / 0.1 := ⟨_, rfl⟩
  have hl10 : |l10| ≤ B := by rw [hl10_def, hB_def]; exact lift10_abs_le s hw hf
  have hpeq : p10 = 10 * s.m_power := by rw [hp10_def]; ring
  have hp100 : p10 ≤ 100 := by rw [hpeq]; linarith
  have hp00 : 0 ≤ p10 := by rw [hpeq]; linarith
  obtain ⟨c1, hc1_def⟩ : ∃ c1, c1 = (bodyUp s).Dot (vaxisOf s) := ⟨_, rfl⟩
  obtain ⟨c2, hc2_def⟩ : ∃ c2, c2 = (bodyFwd s).Dot (vaxisOf s) := ⟨_, rfl⟩
  have hbes : c1 ^ 2 + c2 ^ 2 ≤ 1 := by
    rw [hc1_def, hc2_def]
    have := bessel (bodyUp s) (bodyFwd s) (vaxisOf s) hu1 hf1 hof
    rwa [hv1] at this
  have hc1a : |c1| ≤ 1 := by
    refine abs_le_of_sq_le_sq ?_ (by norm_num)
    nlinarith only [hbes, sq_nonneg c2]
  have hc2a : |c2| ≤ 1 := by
    refine abs_le_of_sq_le_sq ?_ (by norm_num)
    nlinarith only [hbes, sq_nonneg c1]
  have hdotv : (accelOf s).Dot (vaxisOf s) =
      l10 * c1 + (-(2 * B)) + p10 * c2 + (-9.8) * (vaxisOf s).y := by
    rw [accelOf_eq s hw, Vec3F.add_Dot, Vec3F.add_Dot, Vec3F.add_Dot,
      Vec3F.smul_Dot, Vec3F.smul_Dot, Vec3F.smul_Dot, drag10_eq s hw,
      Vec3F.Dot_self, hv1]
    rw [hl10_def, hp10_def, hc1_def, hc2_def, hB_def]
    simp only [Vec3F.Dot]
    ring
  have hvy : ((vaxisOf s).y) ^ 2 ≤ 1 := by
    have := Vec3F.sq_comp_le_lengthSq_y (vaxisOf s)
    rwa [hv1] at this
  have hvy1 : (-9.8) * (vaxisOf s).y ≤ 9.8 := by
    nlinarith only [hvy, sq_nonneg ((vaxisOf s).y + 1)]
  have haccsq : (accelOf s).lengthSq ≤ 510000 := by
    rw [accelOf_eq s hw, ← hl10_def, ← hp10_def]
    have h4 := Vec3F.lengthSq_add4_le ((bodyUp s).smul l10)
      ((vaxisOf s).smul (dynPressure s * 0.0001 * (-1) * wingArea s / 0.1))
      ((bodyFwd s).smul p10) (⟨0, -9.8, 0⟩ : Vec3F)
    have e1 : ((bodyUp s).smul l10).lengthSq = l10 ^ 2 := by
      rw [Vec3F.lengthSq_smul, hu1, mul_one]
    have e2 : ((vaxisOf s).smul
        (dynPressure s * 0.0001 * (-1) * wingArea s / 0.1)).lengthSq = 4 * B ^ 2 := by
      rw [Vec3F.lengthSq_smul, hv1, mul_one, drag10_eq s hw, hB_def]
      ring
    have e3 : ((bodyFwd s).smul p10).lengthSq = p10 ^ 2 := by
      rw [Vec3F.lengthSq_smul, hf1, mul_one]
    have e4 : (⟨0, -9.8, 0⟩ : Vec3F).lengthSq = 96.04 := by
      simp only [Vec3F.lengthSq]; norm_num
    have hsqB : l10 ^ 2 ≤ B ^ 2 := by
      rw [← sq_abs]
      exact pow_le_pow_left (abs_nonneg _) hl10 2
    have hsqp : p10 ^ 2 ≤ 10000 := by nlinarith only [hp100, hp00]
    have hB2 : B ^ 2 ≤ 23447.27 := by nlinarith only [hB0, hBle]
    rw [e1, e2, e3, e4] at h4
    nlinarith only [h4, hsqB, hsqp, hB2]
  have hmain : (velMid s + (accelOf s).smul s.m_DT).lengthSq =
      speedOf s ^ 2 + 2 * s.m_DT * speedOf s * ((accelOf s).Dot (vaxisOf s)) +
        s.m_DT ^ 2 * (accelOf s).lengthSq := by
    rw [Vec3F.lengthSq_add, velMid, Vec3F.lengthSq_smul, hv1, Vec3F.smul_Dot,
      Vec3F.Dot_smul_right, Vec3F.Dot_comm, Vec3F.lengthSq_smul]
    ring
  rw [hmain, hdt]
  by_cases hsp : speedOf s ≤ 499
  · have h1 : l10 * c1 ≤ B := by
      have ha := abs_le.mp hl10
      have hb := abs_le.mp hc1a
      nlinarith only [ha.1, ha.2, hb.1, hb.2, hB0]
    have h2 : p10 * c2 ≤ 100 := by
      have hb := abs_le.mp hc2a
      nlinarith only [hb.1, hb.2, hp100, hp00]
    have hdot_le : (accelOf s).Dot (vaxisOf s) ≤ 262.93 := by
      rw [hdotv]
      linarith only [hvy1, h1, h2, hB0]
    have hsd : speedOf s * ((accelOf s).Dot (vaxisOf s)) ≤ 499 * 262.93 := by
      nlinarith only [hdot_le, hsp, hsp0]
    nlinarith only [hsd, haccsq, hsp, hsp0]
  · push_neg at hsp
    have hB76 : 76.25 ≤ B := by
      rw [hB_def]
      have hsq : (249001:ℝ) ≤ speedOf s ^ 2 := by nlinarith only [hsp]
      nlinarith only [hsq, hfl0, sq_nonneg (speedOf s)]
    have hsqB : l10 ^ 2 ≤ B ^ 2 := by
      rw [← sq_abs]
      exact pow_le_pow_left (abs_nonneg _) hl10 2
    have hcoef : l10 ^ 2 + p10 ^ 2 ≤ (2 * B - 21) ^ 2 := by
      have hsqp : p10 ^ 2 ≤ 10000 := by nlinarith only [hp100, hp00]
      nlinarith only [hsqp, hsqB, hB76, sq_nonneg (B - 76.25)]
    have hM0 : (0:ℝ) ≤ 2 * B - 21 := by linarith
    have hcs : l10 * c1 + p10 * c2 ≤ (2 * B - 21) * 1 :=
      cs_le l10 p10 c1 c2 1 (2 * B - 21) (by norm_num) hM0 (by simpa using hbes) hcoef
    have hdot_le : (accelOf s).Dot (vaxisOf s) ≤ -11.2 := by
      rw [hdotv]
      linarith only [hvy1, hcs]
    have hsd : speedOf s * ((accelOf s).Dot (vaxisOf s)) ≤ 499 * (-11.2) := by
      nlinarith only [hdot_le, hsp, hsp0, hsp5]
    nlinarith only [hsd, haccsq, hsp2, hsp0]

theorem sum3_sq_le (a b c : ℝ) :
    (a + b + c) * (a + b + c) ≤ 3 * (a * a + b * b + c * c) := by
  nlinarith [sq_nonneg (a - b), sq_nonneg (a - c), sq_nonneg (b - c)]

theorem lengthSq_add3_le (a b c : Vec3F) :
    (a + b + c).lengthSq ≤ 3 * (a.lengthSq + b.lengthSq + c.lengthSq) := by
  simp only [Vec3F.lengthSq, Vec3F.add_x, Vec3F.add_y, Vec3F.add_z]
  have hx := sum3_sq_le a.x b.x c.x
  have hy := sum3_sq_le a.y b.y c.y
  have hz := sum3_sq_le a.z b.z c.z
  linarith

/-- Core estimate for the speed invariant, ground branch: the squared length of
`m_vel` after friction, the rudder rotation and the final velocity integration
stays below `500²`. -/
theorem vel_ground_bound (ho : s.m_orient.normSq = 1)
    (hw : s.m_wind = ⟨0, 0, 0⟩) (hms : s.m_max_speed = 500) (hdt : s.m_DT = 0.001)
    (hp0 : 0 ≤ s.m_power) (hp10 : s.m_power ≤ 10)
    (hf : s.m_flaps = 0 ∨ s.m_flaps = 1) (hr : |s.m_roll| ≤ 1) :
    ((groundRudder s).rotateVec
        ((⟨(velMid s).x, 0, (velMid s).z⟩ : Vec3F).smul 0.9999) +
      (accelOf s + (⟨0, 9.8, 0⟩ : Vec3F)).smul s.m_DT).lengthSq ≤ 250000 := by
  have hmax0 : (0:ℝ) ≤ s.m_max_speed := by rw [hms]; norm_num
  have hsp0 : 0 ≤ speedOf s := speedOf_nonneg s hmax0
  have hsp5 : speedOf s ≤ 500 := by
    have := speedOf_le_max s
    rwa [hms] at this
  have hfl0 : 0 ≤ s.m_flaps := flaps_nonneg s hf
  have hfl1 : s.m_flaps ≤ 1 := by rcases hf with h | h <;> rw [h] <;> norm_num
  obtain ⟨B, hB_def⟩ : ∃ B, B = 0.00030625 * (1 + s.m_flaps) * speedOf s ^ 2 := ⟨_, rfl⟩
  have hsp2 : speedOf s ^ 2 ≤ 250000 := by nlinarith only [hsp0, hsp5]
  have hB0 : 0 ≤ B := by
    rw [hB_def]
    have : (0:ℝ) ≤ 1 + s.m_flaps := by linarith
    positivity
  have hBle : B ≤ 153.125 := by
    rw [hB_def]
    nlinarith only [hsp2, hfl0, hfl1, sq_nonneg (speedOf s)]
  have hu1 := bodyUp_unit s ho
  have hf1 := bodyFwd_unit s ho
  have hv1 := vaxisOf_unit s ho hmax0
  have hof : (bodyUp s).Dot (bodyFwd s) = 0 := by
    rw [Vec3F.Dot_comm]; exact bodyFwd_dot_bodyUp s ho
  obtain ⟨l10, hl10_def⟩ : ∃ l10, l10 = liftScalar s / 0.1 := ⟨_, rfl⟩
  obtain ⟨p10, hp10_def⟩ : ∃ p10, p10 = s.m_power / 0.1 := ⟨_, rfl⟩
  have hl10 : |l10| ≤ B := by rw [hl10_def, hB_def]; exact lift10_abs_le s hw hf
  have hpeq : p10 = 10 * s.m_power := by rw [hp10_def]; ring
  have hp100 : p10 ≤ 100 := by rw [hpeq]; linarith
  have hp00 : 0 ≤ p10 := by rw [hpeq]; linarith
  have hsqB : l10 ^ 2 ≤ B ^ 2 := by
    rw [← sq_abs]
    exact pow_le_pow_left (abs_nonneg _) hl10 2
  have hsqp : p10 ^ 2 ≤ 10000 := by nlinarith only [hp100, hp00]
  -- the gravity term cancels against the upward ground force
  have haccg : accelOf s + (⟨0, 9.8, 0⟩ : Vec3F) =
      (bodyUp s).smul l10 +
        (vaxisOf s).smul (dynPressure s * 0.0001 * (-1) * wingArea s / 0.1) +
        (bodyFwd s).smul p10 := by
    rw [accelOf_eq s hw, hl10_def, hp10_def]
    ext <;> simp only [Vec3F.add_x, Vec3F.add_y, Vec3F.add_z, Vec3F.smul_x,
      Vec3F.smul_y, Vec3F.smul_z] <;> ring
  -- the rotated, friction-scaled horizontal velocity
  obtain ⟨t, ht_def⟩ : ∃ t, t = -s.m_roll * 0.001 := ⟨_, rfl⟩
  have hvg_eq : (groundRudder s).rotateVec
      ((⟨(velMid s).x, 0, (velMid s).z⟩ : Vec3F).smul 0.9999) =
      ⟨(velMid s).x * 0.9999 * Real.cos t + (velMid s).z * 0.9999 * Real.sin t, 0,
       -((velMid s).x * 0.9999) * Real.sin t + (velMid s).z * 0.9999 * Real.cos t⟩ := by
    rw [groundRudder, ← ht_def, Quaternion.rotateVec_fromAngleAxis_Y]
    ext <;> simp only [Vec3F.smul_x, Vec3F.smul_y, Vec3F.smul_z] <;> ring
  obtain ⟨vg, hvg_def⟩ : ∃ vg, vg = (groundRudder s).rotateVec
      ((⟨(velMid s).x, 0, (velMid s).z⟩ : Vec3F).smul 0.9999) := ⟨_, rfl⟩
  obtain ⟨H, hH_def⟩ : ∃ H, H = (vaxisOf s).x ^ 2 + (vaxisOf s).z ^ 2 := ⟨_, rfl⟩
  have hH0 : 0 ≤ H := by rw [hH_def]; positivity
  have hH1 : H ≤ 1 := by
    rw [hH_def]
    have := Vec3F.sq_comp_le_lengthSq_y (vaxisOf s)
    simp only [Vec3F.lengthSq] at hv1
    nlinarith only [hv1, sq_nonneg ((vaxisOf s).y)]
  have hvmx : (velMid s).x = (vaxisOf s).x * speedOf s := rfl
  have hvmz : (velMid s).z = (vaxisOf s).z * speedOf s := rfl
  have hpyth := Real.sin_sq_add_cos_sq t
  -- squared length of the rotated velocity
  have hX2 : vg.lengthSq = 0.9999 ^ 2 * (speedOf s ^ 2 * H) := by
    rw [hvg_def, hvg_eq]
    simp only [Vec3F.lengthSq, hvmx, hvmz]
    rw [hH_def]
    nlinarith only [hpyth, sq_nonneg (Real.sin t), sq_nonneg (Real.cos t),
      sq_nonneg ((vaxisOf s).x * speedOf s), sq_nonneg ((vaxisOf s).z * speedOf s)]
  -- projection of the rotated velocity onto the velocity axis
  have hdvvg : (vaxisOf s).Dot vg = 0.9999 * speedOf s * H * Real.cos t := by
    rw [hvg_def, hvg_eq]
    simp only [Vec3F.Dot, hvmx, hvmz]
    rw [hH_def]
    ring
  -- cosine of the small rudder angle
  have ht2 : t ^ 2 ≤ 0.000001 := by
    rw [ht_def]
    have : s.m_roll ^ 2 ≤ 1 := by
      rw [← sq_abs]
      nlinarith only [hr, abs_nonneg s.m_roll]
    nlinarith only [this]
  have hcge : (0.9999995:ℝ) ≤ Real.cos t := by
    have := Real.one_sub_sq_div_two_le_cos (x := t)
    nlinarith only [this, ht2]
  have hcle : Real.cos t ≤ 1 := Real.cos_le_one t
  -- Bessel for the rotated velocity
  obtain ⟨c1, hc1_def⟩ : ∃ c1, c1 = (bodyUp s).Dot vg := ⟨_, rfl⟩
  obtain ⟨c2, hc2_def⟩ : ∃ c2, c2 = (bodyFwd s).Dot vg := ⟨_, rfl⟩
  have hbes : c1 ^ 2 + c2 ^ 2 ≤ vg.lengthSq := by
    rw [hc1_def, hc2_def]
    exact bessel (bodyUp s) (bodyFwd s) vg hu1 hf1 hof
  -- dot of the ground acceleration with the rotated velocity
  have hdotg : (accelOf s + (⟨0, 9.8, 0⟩ : Vec3F)).Dot vg =
      l10 * c1 + (-(2 * B)) * (0.9999 * speedOf s * H * Real.cos t) + p10 * c2 := by
    rw [haccg, Vec3F.add_Dot, Vec3F.add_Dot, Vec3F.smul_Dot, Vec3F.smul_Dot,
      Vec3F.smul_Dot, drag10_eq s hw]
    rw [hc1_def, hc2_def, hB_def]
    have : (vaxisOf s).Dot vg = 0.9999 * speedOf s * H * Real.cos t := hdvvg
    rw [this]
  -- bound on the squared ground acceleration
  have haccsq : (accelOf s + (⟨0, 9.8, 0⟩ : Vec3F)).lengthSq ≤ 382000 := by
    rw [haccg]
    have h3 := lengthSq_add3_le ((bodyUp s).smul l10)
      ((vaxisOf s).smul (dynPressure s * 0.0001 * (-1) * wingArea s / 0.1))
      ((bodyFwd s).smul p10)
    have e1 : ((bodyUp s).smul l10).lengthSq = l10 ^ 2 := by
      rw [Vec3F.lengthSq_smul, hu1, mul_one]
    have e2 : ((vaxisOf s).smul
        (dynPressure s * 0.0001 * (-1) * wingArea s / 0.1)).lengthSq = 4 * B ^ 2 := by
      rw [Vec3F.lengthSq_smul, hv1, mul_one, drag10_eq s hw, hB_def]
      ring
    have e3 : ((bodyFwd s).smul p10).lengthSq = p10 ^ 2 := by
      rw [Vec3F.lengthSq_smul, hf1, mul_one]
    rw [e1, e2, e3] at h3
    have hB2 : B ^ 2 ≤ 23447.27 := by nlinarith only [hB0, hBle]
    nlinarith only [h3, hsqB, hsqp, hB2]
  -- expansion of the final squared length
  have hmain : (vg + (accelOf s + (⟨0, 9.8, 0⟩ : Vec3F)).smul s.m_DT).lengthSq =
      vg.lengthSq +
        2 * s.m_DT * ((accelOf s + (⟨0, 9.8, 0⟩ : Vec3F)).Dot vg) +
        s.m_DT ^ 2 * (accelOf s + (⟨0, 9.8, 0⟩ : Vec3F)).lengthSq := by
    rw [Vec3F.lengthSq_add, Vec3F.Dot_smul_right, Vec3F.Dot_comm, Vec3F.lengthSq_smul]
    ring
  rw [← hvg_def, hmain, hdt, hdotg]
  by_cases hX : vg.lengthSq ≤ 249001
  · -- the rotated velocity is at most 499: a crude bound suffices
    have hcs : l10 * c1 + p10 * c2 ≤ (B + 100) * 499 := by
      refine cs_le l10 p10 c1 c2 499 (B + 100) (by norm_num) (by linarith) ?_ ?_
      · nlinarith only [hbes, hX]
      · nlinarith only [hsqB, hsqp, hB0]
    have hdragle : (-(2 * B)) * (0.9999 * speedOf s * H * Real.cos t) ≤ 0 := by
      have h1 : 0 ≤ 0.9999 * speedOf s * H * Real.cos t := by
        have : (0:ℝ) ≤ Real.cos t := by linarith
        positivity
      nlinarith only [h1, hB0]
    nlinarith only [hX, hcs, hdragle, haccsq, hBle]
  · -- the rotated velocity exceeds 499: the drag projection dominates
    push_neg at hX
    have hXle : vg.lengthSq ≤ 249950.1 := by
      rw [hX2]
      nlinarith only [hsp2, hH1, hH0, sq_nonneg (speedOf s)]
    have hspH : 249050 ≤ speedOf s ^ 2 * H := by
      rw [hX2] at hX
      nlinarith only [hX]
    have hsp499 : 499 ≤ speedOf s := by
      have h2 : 249050 ≤ speedOf s ^ 2 := by nlinarith only [hspH, hH1, sq_nonneg (speedOf s), hH0]
      nlinarith only [h2, hsp0]
    have hHge : 0.996 ≤ H := by
      nlinarith only [hspH, hsp2, hH0]
    have hB76 : 76.25 ≤ B := by
      rw [hB_def]
      have h2 : 249050 ≤ speedOf s ^ 2 := by nlinarith only [hspH, hH1, sq_nonneg (speedOf s), hH0]
      nlinarith only [h2, hfl0]
    have hcoef : l10 ^ 2 + p10 ^ 2 ≤ (2 * B - 21) ^ 2 := by
      nlinarith only [hsqp, hsqB, hB76, sq_nonneg (B - 76.25)]
    have hM0 : (0:ℝ) ≤ 2 * B - 21 := by linarith
    have hcs : l10 * c1 + p10 * c2 ≤ (2 * B - 21) * 500 := by
      refine cs_le l10 p10 c1 c2 500 (2 * B - 21) (by norm_num) hM0 ?_ hcoef
      nlinarith only [hbes, hXle]
    have hdrag : (-(2 * B)) * (0.9999 * speedOf s * H * Real.cos t) ≤
        -(2 * B) * (0.9999 * 499 * 0.996 * 0.9999995) := by
      have hfac : 0.9999 * 499 * 0.996 * 0.9999995 ≤ 0.9999 * speedOf s * H * Real.cos t := by
        have s1 : (499:ℝ) * 0.996 ≤ speedOf s * H :=
          mul_le_mul hsp499 hHge (by norm_num) hsp0
        have s2 : ((499:ℝ) * 0.996) * 0.9999995 ≤ (speedOf s * H) * Real.cos t :=
          mul_le_mul s1 hcge (by norm_num) (by nlinarith only [s1])
        nlinarith only [s2]
      nlinarith only [hfac, hB0]
    nlinarith only [hXle, hcs, hdrag, haccsq, hBle, hB76]

end SpeedBound

section Runs

variable (te : Quaternion → Vec3F) (s : FlightState)

/-- The state properties that hold in `initState` and are preserved by every
`Advance` call regardless of the control inputs: unit orientation and the
constant environment (no wind, `m_max_speed = 500`, `m_DT = 0.001`). -/
def RunInv (s : FlightState) : Prop :=
  s.m_orient.normSq = 1 ∧ s.m_wind = ⟨0, 0, 0⟩ ∧ s.m_max_speed = 500 ∧
    s.m_DT = 0.001

theorem setControls_const (c : Controls) :
    (setControls s c).m_orient = s.m_orient ∧
    (setControls s c).m_wind = s.m_wind ∧
    (setControls s c).m_max_speed = s.m_max_speed ∧
    (setControls s c).m_DT = s.m_DT ∧
    (setControls s c).m_pitch_adv = s.m_pitch_adv ∧
    (setControls s c).m_vel = s.m_vel ∧
    (setControls s c).m_roll = c.roll ∧
    (setControls s c).m_pitch = c.pitch ∧
    (setControls s c).m_power = c.power ∧
    (setControls s c).m_flaps = c.flaps := by
  exact ⟨rfl, rfl, rfl, rfl, rfl, rfl, rfl, rfl, rfl, rfl⟩

theorem RunInv_Advance (h : RunInv s) : RunInv (Advance te s) := by
  obtain ⟨h1, h2, h3, h4⟩ := h
  refine ⟨?_, ?_, ?_, ?_⟩
  · exact Advance_orient_unit te s h1 (by rw [h3]; norm_num)
  · rw [Advance_m_wind]; exact h2
  · rw [Advance_m_max_speed]; exact h3
  · rw [Advance_m_DT]; exact h4

theorem RunInv_setControls (c : Controls) (h : RunInv s) :
    RunInv (setControls s c) := h

theorem RunInv_initState : RunInv initState := by
  refine ⟨?_, rfl, rfl, rfl⟩
  exact Quaternion.normSq_fromDirectionAndRoll _ _

theorem RunInv_run (l : List Controls) : RunInv (run te l) := by
  rw [run]
  have general : ∀ (l' : List Controls) (s0 : FlightState), RunInv s0 →
      RunInv (l'.foldl (fun s c => Advance te (setControls s c)) s0) := by
    intro l'
    induction l' with
    | nil => intro s0 h; exact h
    | cons c cs ih =>
        intro s0 h
        rw [List.foldl_cons]
        exact ih _ (RunInv_Advance te _ (RunInv_setControls _ c h))
  exact general l initState RunInv_initState

/-- `Advance` keeps the speed below `m_max_speed = 500` for any single call
from a state satisfying the run invariant, with admissible control inputs. -/
theorem Advance_vel_le (h : RunInv s)
    (hr : |s.m_roll| ≤ 1) (hp0 : 0 ≤ s.m_power) (hp10 : s.m_power ≤ 10)
    (hf : s.m_flaps = 0 ∨ s.m_flaps = 1) :
    (Advance te s).m_vel.Length ≤ 500 := by
  obtain ⟨h1, h2, h3, h4⟩ := h
  have hsq : (Advance te s).m_vel.lengthSq ≤ 250000 := by
    by_cases hg : groundHit s
    · rw [(Advance_ground te s hg).2.1]
      exact vel_ground_bound s h1 h2 h3 h4 hp0 hp10 hf hr
    · rw [(Advance_air te s hg).2.1]
      exact vel_air_bound s h1 h2 h3 h4 hp0 hp10 hf
  rw [Vec3F.Length]
  have hmono := Real.sqrt_le_sqrt hsq
  have h500 : Real.sqrt 250000 = 500 := by
    rw [show (250000:ℝ) = 500 ^ 2 by norm_num, Real.sqrt_sq (by norm_num)]
  rwa [h500] at hmono

/-- Admissible control inputs: the ranges the host's input collector produces. -/
def ValidControls (c : Controls) : Prop :=
  |c.roll| ≤ 1 ∧ |c.pitch| ≤ 1 ∧ 0 ≤ c.power ∧ c.power ≤ 10 ∧
    (c.flaps = 0 ∨ c.flaps = 1)

theorem run_append_one (l : List Controls) (c : Controls) :
    run te (l ++ [c]) = Advance te (setControls (run te l) c) := by
  rw [run, run, List.foldl_append, List.foldl_cons, List.foldl_nil]

theorem initState_vel_Length : initState.m_vel.Length = 200 := by
  rw [Vec3F.Length]
  have : (initState.m_vel).lengthSq = 40000 := by
    simp only [initState, Vec3F.lengthSq]
    norm_num
  rw [this, show (40000:ℝ) = 200 ^ 2 by norm_num, Real.sqrt_sq (by norm_num)]

/-- The speed after every call of a run with admissible control inputs is
between `0` and `500`. -/
theorem run_vel_le (l : List Controls) (hv : ∀ c ∈ l, ValidControls c) :
    0 ≤ (run te l).m_vel.Length ∧ (run te l).m_vel.Length ≤ 500 := by
  refine ⟨Vec3F.Length_nonneg _, ?_⟩
  rcases List.eq_nil_or_concat l with rfl | ⟨l', c, rfl⟩
  · rw [show run te [] = initState from rfl, initState_vel_Length]
    norm_num
  · rw [List.concat_eq_append, run_append_one]
    have hc : ValidControls c := hv c (by simp)
    obtain ⟨hr, hpi, hp0, hp10, hf⟩ := hc
    have hinv : RunInv (setControls (run te l') c) :=
      RunInv_setControls _ c (RunInv_run te l')
    exact Advance_vel_le te _ hinv hr hp0 hp10 hf

/-- The pitch-authority accumulator stays in `[-10, 10]` along any run whose
pitch inputs stay in `[-1, 1]`. -/
theorem run_pitch_adv_le (l : List Controls) (hv : ∀ c ∈ l, |c.pitch| ≤ 1) :
    |(run te l).m_pitch_adv| ≤ 10 := by
  rw [run]
  have general : ∀ (l' : List Controls) (s0 : FlightState), |s0.m_pitch_adv| ≤ 10 →
      (∀ c ∈ l', |c.pitch| ≤ 1) →
      |(l'.foldl (fun s c => Advance te (setControls s c)) s0).m_pitch_adv| ≤ 10 := by
    intro l'
    induction l' with
    | nil => intro s0 h0 _; exact h0
    | cons c cs ih =>
        intro s0 h0 hvc
        rw [List.foldl_cons]
        refine ih _ ?_ (fun d hd => hvc d (by simp [hd]))
        rw [Advance_m_pitch_adv]
        exact pitchAdvOf_bound _ (hvc c (by simp)) h0
  exact general l initState (by rw [show initState.m_pitch_adv = 0 from rfl]; norm_num) hv

end Runs

section GroundVel

variable (te : Quaternion → Vec3F) (s : FlightState)

/-- On a ground-contact tick, the vertical velocity after the call equals the
residual body-force term times `dt`: the `m_vel.y = 0` reset is followed by the
final velocity integration `m_vel += m_accel * m_DT`, in which gravity is
cancelled by the upward ground force but the lift/drag/thrust and wind terms
survive. -/
theorem Advance_ground_vel_y (hg : groundHit s) :
    (Advance te s).m_vel.y =
      (((liftOf s).y + (dragOf s).y + (thrustOf s).y) / 0.1 +
        s.m_wind.y * 1.225 * 0.1) * s.m_DT := by
  rw [(Advance_ground te s hg).2.1, groundRudder, Quaternion.rotateVec_fromAngleAxis_Y]
  simp only [Vec3F.add_y, Vec3F.smul_y, accelOf, forceOf, Vec3F.sdiv_y]
  ring

end GroundVel

/-- A trivial Euler extraction used to instantiate the `toEuler` parameter in
concrete evaluations in which the landing grade is not exercised. -/
noncomputable def teZero : Quaternion → Vec3F := fun _ => ⟨0, 0, 0⟩

/-- Concrete state for the ground-contact scenario of the spec: position
slightly below the ground with a downward velocity, identity orientation,
all controls released, power zero. -/
noncomputable def cexGround : FlightState :=
  { m_pos := ⟨0, -0.001, 0⟩, m_vel := ⟨0, -1, 0⟩, m_orient := ⟨1, 0, 0, 0⟩,
    m_roll := 0, m_pitch := 0, m_pitch_adv := 0, m_power := 0,
    m_lift := ⟨0, 0, 0⟩, m_thrust := ⟨0, 0, 0⟩, m_drag := ⟨0, 0, 0⟩,
    m_force := ⟨0, 0, 0⟩, m_accel := ⟨0, 0, 0⟩,
    m_speed := 0, m_max_speed := 500, m_aoa := 0, m_DT := 0.001, m_flaps := 0,
    m_wind := ⟨0, 0, 0⟩, m_runway_length := 2000, m_runway_width := 50,
    m_landing_info := none, m_landing_status := false, m_airborn := 5 }

section CexGround

theorem cexGround_speed0 : speed0 cexGround = 1 := by
  have h : cexGround.m_vel.lengthSq = 1 := by
    simp only [cexGround, Vec3F.lengthSq]
    norm_num
  rw [speed0, Vec3F.Length, h, Real.sqrt_one]

theorem cexGround_speedOf : speedOf cexGround = 1 := by
  have hmax : cexGround.m_max_speed = 500 := rfl
  rw [speedOf_eq, cexGround_speed0, hmax]
  norm_num

theorem cexGround_vaxisPre : vaxisPre cexGround = ⟨0, -1, 0⟩ := by
  rw [vaxisPre, cexGround_speedOf, if_neg (by norm_num : (1:ℝ) ≠ 0),
    vaxisRaw, cexGround_speed0]
  show (⟨0, -1, 0⟩ : Vec3F).sdiv 1 = _
  ext <;> simp

theorem cexGround_pitchAdvOf : pitchAdvOf cexGround = 1.09945 := by
  have hy : cexGround.m_pos.y = -0.001 := rfl
  have hp : cexGround.m_pitch = 0 := rfl
  rw [pitchAdvOf, hy, hp, if_pos (by norm_num : (-0.001:ℝ) ≤ 0)]
  norm_num

theorem cexGround_ctrlPitch :
    ctrlPitch cexGround = Quaternion.fromAngleAxis 0.000109945 ⟨0, 0, 1⟩ := by
  have hr : bodyRight cexGround = ⟨0, 0, 1⟩ := Quaternion.rotateVec_one _
  rw [ctrlPitch, cexGround_pitchAdvOf, hr]
  norm_num

theorem cexGround_vaxisOf : vaxisOf cexGround =
    ⟨Real.sin 0.000109945, -Real.cos 0.000109945, 0⟩ := by
  have hrot : (Quaternion.fromAngleAxis 0.000109945 ⟨0, 0, 1⟩).rotateVec
      ⟨0, -1, 0⟩ = ⟨Real.sin 0.000109945, -Real.cos 0.000109945, 0⟩ := by
    rw [Quaternion.rotateVec_fromAngleAxis_Z]
    ext <;> norm_num
  have hunit : (⟨Real.sin 0.000109945, -Real.cos 0.000109945, 0⟩ : Vec3F).lengthSq = 1 := by
    simp only [Vec3F.lengthSq]
    nlinarith only [Real.sin_sq_add_cos_sq (0.000109945:ℝ)]
  rw [vaxisOf, cexGround_ctrlPitch, cexGround_vaxisPre, hrot,
    Vec3F.Normalize_of_unit _ hunit]

theorem cexGround_velMid : velMid cexGround =
    ⟨Real.sin 0.000109945, -Real.cos 0.000109945, 0⟩ := by
  rw [velMid, cexGround_vaxisOf, cexGround_speedOf]
  ext <;> simp

theorem cexGround_groundHit : groundHit cexGround := by
  rw [groundHit, posNew, cexGround_velMid]
  have hy : cexGround.m_pos.y = -0.001 := rfl
  have hdt : cexGround.m_DT = 0.001 := rfl
  simp only [Vec3F.add_y, Vec3F.smul_y, hy, hdt]
  nlinarith only [Real.neg_one_le_cos (0.000109945:ℝ)]

theorem cexGround_dynPressure : dynPressure cexGround = 0.6125 := by
  rw [dynPressure, airflow_eq_speed cexGround rfl, cexGround_speedOf]
  norm_num

theorem cexGround_force_y :
    0.00002 < (liftOf cexGround).y + (dragOf cexGround).y + (thrustOf cexGround).y := by
  have hup : bodyUp cexGround = ⟨0, 1, 0⟩ := Quaternion.rotateVec_one _
  have hfwd : bodyFwd cexGround = ⟨1, 0, 0⟩ := Quaternion.rotateVec_one _
  have hfl : cexGround.m_flaps = 0 := rfl
  have hpw : cexGround.m_power = 0 := rfl
  have hliftY : (liftOf cexGround).y = liftScalar cexGround := by
    rw [liftOf, hup]
    simp
  have hCL : CLOf cexGround = Real.sin (aoaOf cexGround * 0.2) := by
    rw [CLOf, flapLift, hfl, zero_mul, add_zero]
  have hLSge : -0.000030625 ≤ liftScalar cexGround := by
    rw [liftScalar, hCL, cexGround_dynPressure]
    nlinarith only [Real.neg_one_le_sin (aoaOf cexGround * 0.2)]
  have hdragY : (dragOf cexGround).y = Real.cos 0.000109945 * 0.00006125 := by
    rw [dragOf, cexGround_vaxisOf, cexGround_dynPressure, wingArea, hfl]
    show -Real.cos 0.000109945 * (0.6125 * 0.0001 * (-1) * (1 + 0)) = _
    ring
  have hthrY : (thrustOf cexGround).y = 0 := by
    rw [thrustOf, hfwd, hpw]
    simp
  have hcos9 : (0.9:ℝ) ≤ Real.cos 0.000109945 := by
    nlinarith only [Real.one_sub_sq_div_two_le_cos (x := (0.000109945:ℝ))]
  rw [hliftY, hdragY, hthrY]
  nlinarith only [hLSge, hcos9]

theorem cexGround_vel_y_pos : 0 < (Advance teZero cexGround).m_vel.y := by
  rw [Advance_ground_vel_y teZero cexGround cexGround_groundHit]
  have hwy : cexGround.m_wind.y = 0 := rfl
  have hdt : cexGround.m_DT = 0.001 := rfl
  rw [hwy, hdt]
  have hr : (((liftOf cexGround).y + (dragOf cexGround).y + (thrustOf cexGround).y) / 0.1 +
      0 * 1.225 * 0.1) * 0.001 =
      ((liftOf cexGround).y + (dragOf cexGround).y + (thrustOf cexGround).y) * 0.01 := by
    ring
  rw [hr]
  nlinarith only [cexGround_force_y]

end CexGround

/-- Concrete airborne state: level flight at altitude 10 with forward speed
200, identity orientation, controls released. -/
noncomputable def airState : FlightState :=
  { m_pos := ⟨0, 10, 0⟩, m_vel := ⟨0, 0, 200⟩, m_orient := ⟨1, 0, 0, 0⟩,
    m_roll := 0, m_pitch := 0, m_pitch_adv := 0, m_power := 3,
    m_lift := ⟨0, 0, 0⟩, m_thrust := ⟨0, 0, 0⟩, m_drag := ⟨0, 0, 0⟩,
    m_force := ⟨0, 0, 0⟩, m_accel := ⟨0, 0, 0⟩,
    m_speed := 0, m_max_speed := 500, m_aoa := 0, m_DT := 0.001, m_flaps := 0,
    m_wind := ⟨0, 0, 0⟩, m_runway_length := 2000, m_runway_width := 50,
    m_landing_info := none, m_landing_status := false, m_airborn := 1 }

section AirState

theorem fromAngleAxis_zero (a : Vec3F) :
    Quaternion.fromAngleAxis 0 a = ⟨1, 0, 0, 0⟩ := by
  simp [Quaternion.fromAngleAxis]

theorem airState_speed0 : speed0 airState = 200 := by
  have h : airState.m_vel.lengthSq = 40000 := by
    simp only [airState, Vec3F.lengthSq]
    norm_num
  rw [speed0, Vec3F.Length, h, show (40000:ℝ) = 200 ^ 2 by norm_num,
    Real.sqrt_sq (by norm_num)]

theorem airState_speedOf : speedOf airState = 200 := by
  have hmax : airState.m_max_speed = 500 := rfl
  rw [speedOf_eq, airState_speed0, hmax]
  norm_num

theorem airState_pitchAdvOf : pitchAdvOf airState = 0 := by
  have hy : airState.m_pos.y = 10 := rfl
  have hp : airState.m_pitch = 0 := rfl
  have hpa : airState.m_pitch_adv = 0 := rfl
  rw [pitchAdvOf, hy, hp, hpa, if_neg (by norm_num : ¬ (10:ℝ) ≤ 0)]
  norm_num

theorem airState_vaxisOf : vaxisOf airState = ⟨0, 0, 1⟩ := by
  have hpre : vaxisPre airState = ⟨0, 0, 1⟩ := by
    rw [vaxisPre, airState_speedOf, if_neg (by norm_num : (200:ℝ) ≠ 0),
      vaxisRaw, airState_speed0]
    show (⟨0, 0, 200⟩ : Vec3F).sdiv 200 = _
    ext <;> norm_num
  have hctrl : ctrlPitch airState = ⟨1, 0, 0, 0⟩ := by
    rw [ctrlPitch, airState_pitchAdvOf, zero_mul, fromAngleAxis_zero]
  rw [vaxisOf, hctrl, hpre, Quaternion.rotateVec_one,
    Vec3F.Normalize_of_unit _ (by simp [Vec3F.lengthSq])]

theorem airState_velMid : velMid airState = ⟨0, 0, 200⟩ := by
  rw [velMid, airState_vaxisOf, airState_speedOf]
  ext <;> simp

theorem airState_not_groundHit : ¬ groundHit airState := by
  rw [groundHit, posNew, airState_velMid]
  have hy : airState.m_pos.y = 10 := rfl
  have hdt : airState.m_DT = 0.001 := rfl
  simp only [Vec3F.add_y, Vec3F.smul_y, hy, hdt]
  norm_num

end AirState

section LandingGrade

variable (te : Quaternion → Vec3F) (s : FlightState)

theorem CheckLanding_grade (h : s.m_airborn > 2000) :
    (CheckLanding te s).m_landing_status =
      (decide (s.m_speed < 80) && decide (|s.m_vel.y| < 2) &&
       decide (|(te s.m_orient).y| < 5) && decide (|(te s.m_orient).x| < 5) &&
       (decide (s.m_pos.x > -s.m_runway_width) && decide (s.m_pos.x < s.m_runway_width) &&
        decide (s.m_pos.z > -s.m_runway_length) && decide (s.m_pos.z < s.m_runway_length))) ∧
    (CheckLanding te s).m_landing_info = some
      { status := (decide (s.m_speed < 80) && decide (|s.m_vel.y| < 2) &&
          decide (|(te s.m_orient).y| < 5) && decide (|(te s.m_orient).x| < 5) &&
          (decide (s.m_pos.x > -s.m_runway_width) && decide (s.m_pos.x < s.m_runway_width) &&
           decide (s.m_pos.z > -s.m_runway_length) && decide (s.m_pos.z < s.m_runway_length))),
        speed := s.m_speed, ok_speed := decide (s.m_speed < 80),
        sink := s.m_vel.y, ok_sink := decide (|s.m_vel.y| < 2),
        pitch := |(te s.m_orient).y|, ok_pitch := decide (|(te s.m_orient).y| < 5),
        roll := |(te s.m_orient).x|, ok_roll := decide (|(te s.m_orient).x| < 5),
        ok_runway := decide (s.m_pos.x > -s.m_runway_width) &&
          decide (s.m_pos.x < s.m_runway_width) &&
          decide (s.m_pos.z > -s.m_runway_length) &&
          decide (s.m_pos.z < s.m_runway_length) } := by
  rw [CheckLanding, if_pos h]
  exact ⟨rfl, rfl⟩

end LandingGrade

/-- The Euler extraction used in the landing-grade scenarios: roll 2°, pitch 3°. -/
noncomputable def teGrade : Quaternion → Vec3F := fun _ => ⟨2, 3, 0⟩

/-- Touchdown state of the spec's landing scenario: speed 60, sink rate 1,
position (0,0,100), runway half-extents 50 and 2000, long airborne phase. -/
noncomputable def landState : FlightState :=
  { cexGround with
    m_airborn := 2001
    m_speed := 60
    m_vel := ⟨0, -1, 0⟩
    m_pos := ⟨0, 0, 100⟩ }

/-- The same touchdown at speed 150: every criterion but speed unchanged. -/
noncomputable def landStateFast : FlightState := { landState with m_speed := 150 }

/-- C1: the claim states that on a ground-contact tick the state after the call
has `position.y == 0` and `velocity.y == 0` exactly.  This is false for
`velocity.y`: the final integration `m_vel += m_accel * m_DT` (line 319) runs
after the ground reset and re-adds the residual force terms.  At a concrete
state with `position.y` slightly negative and `velocity.y` negative, the call
yields `position.y = 0` but `velocity.y ≠ 0`. -/
theorem c1_counterexample :
    (Advance teZero cexGround).m_pos.y = 0 ∧
      (Advance teZero cexGround).m_vel.y ≠ 0 := by
  constructor
  · rw [(Advance_ground teZero cexGround cexGround_groundHit).1]
  · exact ne_of_gt cexGround_vel_y_pos

/-- C1 (amended): whenever `Advance` detects ground contact, the state after
the call satisfies `position.y = 0` exactly, while `velocity.y` equals the
residual body-force term `((lift.y + drag.y + thrust.y)/mass + wind.y*1.225*0.1) * dt`
(gravity being exactly cancelled by the upward ground force), which is in
general nonzero. -/
theorem c1_ground_state (te : Quaternion → Vec3F) (s : FlightState)
    (hg : groundHit s) :
    (Advance te s).m_pos.y = 0 ∧
    (Advance te s).m_vel.y =
      (((liftOf s).y + (dragOf s).y + (thrustOf s).y) / 0.1 +
        s.m_wind.y * 1.225 * 0.1) * s.m_DT := by
  constructor
  · rw [(Advance_ground te s hg).1]
  · exact Advance_ground_vel_y te s hg

/-- C1 witness: the amended statement applied to the concrete ground-contact
state. -/
theorem c1_witness :
    groundHit cexGround ∧
    (Advance teZero cexGround).m_pos.y = 0 ∧
    (Advance teZero cexGround).m_vel.y =
      (((liftOf cexGround).y + (dragOf cexGround).y + (thrustOf cexGround).y) / 0.1 +
        cexGround.m_wind.y * 1.225 * 0.1) * cexGround.m_DT :=
  ⟨cexGround_groundHit, c1_ground_state teZero cexGround cexGround_groundHit⟩

/-- C2: for every sequence of `Advance` calls from the initial state with
control inputs in range (roll, pitch in `[-1,1]`, power in `[0,10]`, flaps in
`{0,1}`), the speed (the magnitude of `m_vel`) after each call is never
negative and never exceeds `max_speed = 500`. -/
theorem c2_speed_bounded (te : Quaternion → Vec3F) (l : List Controls)
    (hv : ∀ c ∈ l, ValidControls c) :
    0 ≤ (run te l).m_vel.Length ∧ (run te l).m_vel.Length ≤ 500 :=
  run_vel_le te l hv

/-- C2 witness: a one-tick run at full controls. -/
theorem c2_witness :
    0 ≤ (run teZero [⟨1, -1, 10, 1⟩]).m_vel.Length ∧
      (run teZero [⟨1, -1, 10, 1⟩]).m_vel.Length ≤ 500 := by
  refine c2_speed_bounded teZero [⟨1, -1, 10, 1⟩] ?_
  intro c hc
  simp only [List.mem_singleton] at hc
  subst hc
  refine ⟨?_, ?_, by norm_num, by norm_num, Or.inr rfl⟩
  · show |(1:ℝ)| ≤ 1
    rw [abs_one]
  · show |(-1:ℝ)| ≤ 1
    rw [abs_neg, abs_one]

/-- C3: the claim states that when altitude ≤ 0 the accumulator is set to
exactly `1.1` with no blend that tick.  This is false: line 235 assigns `1.1`
but line 236 still applies the blend, giving `1.1*0.9995 + pitch*0.005 =
1.09945 ≠ 1.1` at pitch 0. -/
theorem c3_counterexample :
    cexGround.m_pos.y ≤ 0 ∧ (Advance teZero cexGround).m_pitch_adv ≠ 1.1 := by
  refine ⟨by rw [show cexGround.m_pos.y = -0.001 from rfl]; norm_num, ?_⟩
  rw [Advance_m_pitch_adv, cexGround_pitchAdvOf]
  norm_num

/-- C3 (amended): in every `Advance` call, if altitude ≤ 0 the accumulator is
first set to `1.1` and the blend is then applied in the same tick, giving
`1.1*0.9995 + pitch*0.005`; otherwise it becomes
`pitch_advance*0.9995 + pitch*0.005`. -/
theorem c3_pitch_adv (te : Quaternion → Vec3F) (s : FlightState) :
    (s.m_pos.y ≤ 0 →
      (Advance te s).m_pitch_adv = 1.1 * 0.9995 + s.m_pitch * 0.005) ∧
    (¬ s.m_pos.y ≤ 0 →
      (Advance te s).m_pitch_adv = s.m_pitch_adv * 0.9995 + s.m_pitch * 0.005) := by
  constructor
  · intro h
    rw [Advance_m_pitch_adv, pitchAdvOf, if_pos h]
  · intro h
    rw [Advance_m_pitch_adv, pitchAdvOf, if_neg h]

/-- C3 witness: the amended ground branch applied to the concrete state. -/
theorem c3_witness :
    cexGround.m_pos.y ≤ 0 ∧
    (Advance teZero cexGround).m_pitch_adv =
      1.1 * 0.9995 + cexGround.m_pitch * 0.005 := by
  have h : cexGround.m_pos.y ≤ 0 := by
    rw [show cexGround.m_pos.y = -0.001 from rfl]; norm_num
  exact ⟨h, (c3_pitch_adv teZero cexGround).1 h⟩

/-- C4: when the evaluator grades a landing (`m_airborn > 2000`), overall
success holds iff all five criteria hold: speed < 80, |sink rate| < 2,
|pitch angle| < 5, |roll angle| < 5, and the position inside the runway
rectangle; the message records the speed criterion's OK/FAIL flag. -/
theorem c4_landing_grade (te : Quaternion → Vec3F) (s : FlightState)
    (h : s.m_airborn > 2000) :
    ((CheckLanding te s).m_landing_status = true ↔
      (s.m_speed < 80 ∧ |s.m_vel.y| < 2 ∧ |(te s.m_orient).y| < 5 ∧
       |(te s.m_orient).x| < 5 ∧ |s.m_pos.x| < s.m_runway_width ∧
       |s.m_pos.z| < s.m_runway_length)) ∧
    (∃ m, (CheckLanding te s).m_landing_info = some m ∧
      m.status = (CheckLanding te s).m_landing_status ∧
      (m.ok_speed = true ↔ s.m_speed < 80)) := by
  obtain ⟨h1, h2⟩ := CheckLanding_grade te s h
  constructor
  · rw [h1]
    simp only [Bool.and_eq_true, decide_eq_true_eq, abs_lt]
    constructor
    · rintro ⟨⟨⟨⟨hs, hv⟩, hp⟩, hr⟩, ⟨⟨hx1, hx2⟩, hz1⟩, hz2⟩
      exact ⟨hs, hv, hp, hr, ⟨by linarith, hx2⟩, ⟨by linarith, hz2⟩⟩
    · rintro ⟨hs, hv, hp, hr, ⟨hx1, hx2⟩, ⟨hz1, hz2⟩⟩
      exact ⟨⟨⟨⟨hs, hv⟩, hp⟩, hr⟩, ⟨⟨by linarith, hx2⟩, by linarith⟩, hz2⟩
  · refine ⟨_, h2, ?_, ?_⟩
    · rw [h1]
    · simp only [decide_eq_true_eq]

/-- C4 witness: the spec's two scenarios: at speed 60 (sink 1, pitch 3°,
roll 2°, position (0,0,100), runway 50/2000) the grade is success; at speed
150 it is failure and the message flags the speed criterion FAIL. -/
theorem c4_witness :
    (CheckLanding teGrade landState).m_landing_status = true ∧
    (CheckLanding teGrade landStateFast).m_landing_status = false ∧
    (∃ m, (CheckLanding teGrade landStateFast).m_landing_info = some m ∧
      m.ok_speed = false) := by
  have hA : landState.m_airborn > 2000 := by
    rw [show landState.m_airborn = 2001 from rfl]; norm_num
  have hA' : landStateFast.m_airborn > 2000 := by
    rw [show landStateFast.m_airborn = 2001 from rfl]; norm_num
  refine ⟨?_, ?_, ?_⟩
  · refine ((c4_landing_grade teGrade landState hA).1).mpr ?_
    refine ⟨?_, ?_, ?_, ?_, ?_, ?_⟩
    · rw [show landState.m_speed = 60 from rfl]; norm_num
    · rw [show landState.m_vel.y = -1 from rfl]
      rw [abs_lt]; norm_num
    · rw [show (teGrade landState.m_orient).y = 3 from rfl]
      rw [abs_lt]; norm_num
    · rw [show (teGrade landState.m_orient).x = 2 from rfl]
      rw [abs_lt]; norm_num
    · rw [show landState.m_pos.x = 0 from rfl,
        show landState.m_runway_width = 50 from rfl]
      rw [abs_lt]; norm_num
    · rw [show landState.m_pos.z = 100 from rfl,
        show landState.m_runway_length = 2000 from rfl]
      rw [abs_lt]; norm_num
  · have hiff := (c4_landing_grade teGrade landStateFast hA').1
    have hno : ¬ (landStateFast.m_speed < 80 ∧ |landStateFast.m_vel.y| < 2 ∧
        |(teGrade landStateFast.m_orient).y| < 5 ∧
        |(teGrade landStateFast.m_orient).x| < 5 ∧
        |landStateFast.m_pos.x| < landStateFast.m_runway_width ∧
        |landStateFast.m_pos.z| < landStateFast.m_runway_length) := by
      intro hcon
      have := hcon.1
      rw [show landStateFast.m_speed = 150 from rfl] at this
      norm_num at this
    rcases hb : (CheckLanding teGrade landStateFast).m_landing_status with _ | _
    · rfl
    · exact absurd (hiff.mp hb) hno
  · obtain ⟨m, hm, _, hok⟩ := (c4_landing_grade teGrade landStateFast hA').2
    refine ⟨m, hm, ?_⟩
    rcases hb : m.ok_speed with _ | _
    · rfl
    · have := hok.mp hb
      rw [show landStateFast.m_speed = 150 from rfl] at this
      norm_num at this

/-- C5: after any sequence of `Advance` calls starting from the initial state,
the orientation quaternion's magnitude is exactly 1 (hence within `[1-ε, 1+ε]`
for every ε ≥ 0): every composition onto `m_orient` is followed by
renormalization, and every composed factor is itself unit length. -/
theorem c5_orientation_unit (te : Quaternion → Vec3F) (l : List Controls) :
    Quaternion.magnitude ((run te l).m_orient) = 1 :=
  Quaternion.magnitude_of_unit _ (RunInv_run te l).1

/-- C7: each `Advance` tick computes the transient forces exactly as claimed:
lift = up * (sin(aoa*0.2) + flaps*cos(speed/max_speed*π/2)) * q * 0.0001 * 0.5
with dynamic pressure q = 0.5*1.225*airflow², airflow = speed + wind·(−vaxis);
drag = −vaxis * q * 0.0001 * (1+flaps); thrust = fwd * power; and (on airborne
ticks, where no ground force is added) acceleration =
(lift+drag+thrust)/0.1 + (0,−9.8,0) + wind*1.225*0.1. -/
theorem c7_forces (te : Quaternion → Vec3F) (s : FlightState) :
    (Advance te s).m_lift = (bodyUp s).smul
      ((Real.sin (aoaOf s * 0.2) +
        s.m_flaps * Real.cos (speedOf s / s.m_max_speed * (Real.pi / 2))) *
       (0.5 * 1.225 * airflowOf s * airflowOf s) * 0.0001 * 0.5) ∧
    (Advance te s).m_drag = (vaxisOf s).smul
      (-(0.5 * 1.225 * airflowOf s * airflowOf s * 0.0001 * (1 + s.m_flaps))) ∧
    (Advance te s).m_thrust = (bodyFwd s).smul s.m_power ∧
    airflowOf s = speedOf s + s.m_wind.Dot ((vaxisOf s).smul (-1)) ∧
    (¬ groundHit s → (Advance te s).m_accel =
      ((Advance te s).m_lift + (Advance te s).m_drag +
        (Advance te s).m_thrust).sdiv 0.1 +
      (⟨0, -9.8, 0⟩ : Vec3F) + s.m_wind.smul (1.225 * 0.1)) := by
  refine ⟨?_, ?_, ?_, rfl, ?_⟩
  · rw [Advance_m_lift, liftOf, liftScalar, CLOf, flapLift, dynPressure]
  · rw [Advance_m_drag, dragOf, dynPressure, wingArea]
    congr 1
    ring
  · rw [Advance_m_thrust, thrustOf]
  · intro hg
    rw [(Advance_air te s hg).2.2.1, Advance_m_lift, Advance_m_drag,
      Advance_m_thrust, accelOf, forceOf]

/-- C7 witness: the airborne acceleration formula at a concrete airborne state. -/
theorem c7_witness :
    ¬ groundHit airState ∧
    (Advance teZero airState).m_accel =
      ((Advance teZero airState).m_lift + (Advance teZero airState).m_drag +
        (Advance teZero airState).m_thrust).sdiv 0.1 +
      (⟨0, -9.8, 0⟩ : Vec3F) + airState.m_wind.smul (1.225 * 0.1) :=
  ⟨airState_not_groundHit,
    (c7_forces teZero airState).2.2.2.2 airState_not_groundHit⟩

/-- C8: grading runs only when `m_airborn > 2000` at ground contact (otherwise
the landing verdict is untouched); on every ground contact `m_airborn` resets
to 0; while airborne `m_airborn` increments each tick and the landing message
clears once it exceeds 3200. -/
theorem c8_landing_protocol (te : Quaternion → Vec3F) (s : FlightState) :
    (groundHit s → (Advance te s).m_airborn = 0) ∧
    (groundHit s → s.m_airborn ≤ 2000 →
      (Advance te s).m_landing_info = s.m_landing_info ∧
      (Advance te s).m_landing_status = s.m_landing_status) ∧
    (¬ groundHit s → (Advance te s).m_airborn = s.m_airborn + 1 ∧
      (Advance te s).m_landing_info =
        (if s.m_airborn + 1 > 3200 then none else s.m_landing_info)) := by
  refine ⟨fun hg => (Advance_ground te s hg).2.2.2.2, ?_, ?_⟩
  · intro hg hle
    exact Advance_ground_landing te s hg (not_lt.mpr hle)
  · intro hg
    exact ⟨(Advance_air te s hg).2.2.2.2.1, (Advance_air te s hg).2.2.2.2.2.1⟩

/-- C8 witness: ground contact resets `m_airborn`, and an airborne tick
increments it, at concrete states. -/
theorem c8_witness :
    groundHit cexGround ∧ (Advance teZero cexGround).m_airborn = 0 ∧
    (¬ groundHit airState ∧ (Advance teZero airState).m_airborn = airState.m_airborn + 1) := by
  refine ⟨cexGround_groundHit,
    (c8_landing_protocol teZero cexGround).1 cexGround_groundHit,
    airState_not_groundHit, ?_⟩
  exact ((c8_landing_protocol teZero airState).2.2 airState_not_groundHit).1

/-- C9: starting from the initial state (`m_pitch_adv = 0`), for any sequence
of control inputs whose pitch stays in `[-1, 1]`, the accumulator stays in
`[-10, 10]`; in the air the map `pa ↦ pa*0.9995 + pitch*0.005` contracts the
distance to the fixed point `10*pitch` by the factor `0.9995` each tick, so
under sustained pitch the accumulator converges toward ten times the held
pitch value rather than decaying to zero. -/
theorem c9_pitch_authority (te : Quaternion → Vec3F) :
    (∀ l : List Controls, (∀ c ∈ l, |c.pitch| ≤ 1) →
      |(run te l).m_pitch_adv| ≤ 10) ∧
    (∀ s : FlightState, 0 < s.m_pos.y →
      (Advance te s).m_pitch_adv - 10 * s.m_pitch =
        0.9995 * (s.m_pitch_adv - 10 * s.m_pitch)) := by
  refine ⟨run_pitch_adv_le te, fun s hs => ?_⟩
  rw [Advance_m_pitch_adv, pitchAdvOf, if_neg (by linarith : ¬ s.m_pos.y ≤ 0)]
  ring

/-- C9 witness: a concrete one-tick run with full pitch input, and the
contraction identity at a concrete airborne state. -/
theorem c9_witness :
    |(run teZero [⟨0, 1, 3, 0⟩]).m_pitch_adv| ≤ 10 ∧
    (0 < airState.m_pos.y ∧
      (Advance teZero airState).m_pitch_adv - 10 * airState.m_pitch =
        0.9995 * (airState.m_pitch_adv - 10 * airState.m_pitch)) := by
  have hy : (0:ℝ) < airState.m_pos.y := by
    rw [show airState.m_pos.y = 10 from rfl]; norm_num
  refine ⟨?_, hy, (c9_pitch_authority teZero).2 airState hy⟩
  refine (c9_pitch_authority teZero).1 [⟨0, 1, 3, 0⟩] ?_
  intro c hc
  simp only [List.mem_singleton] at hc
  subst hc
  show |(1:ℝ)| ≤ 1
  rw [abs_one]

/-- C10: a ground contact with `m_airborn ≤ 2000` leaves the last landing
verdict (message and success flag) completely unchanged while still resetting
`m_airborn` to 0. -/
theorem c10_ground_graze_frame (te : Quaternion → Vec3F) (s : FlightState)
    (hg : groundHit s) (hle : s.m_airborn ≤ 2000) :
    (Advance te s).m_landing_info = s.m_landing_info ∧
    (Advance te s).m_landing_status = s.m_landing_status ∧
    (Advance te s).m_airborn = 0 := by
  have h2 := Advance_ground_landing te s hg (not_lt.mpr hle)
  exact ⟨h2.1, h2.2, (Advance_ground te s hg).2.2.2.2⟩

/-- C10 witness: the frame condition at the concrete ground-contact state
with `m_airborn = 5`. -/
theorem c10_witness :
    groundHit cexGround ∧ cexGround.m_airborn ≤ 2000 ∧
    ((Advance teZero cexGround).m_landing_info = cexGround.m_landing_info ∧
     (Advance teZero cexGround).m_landing_status = cexGround.m_landing_status ∧
     (Advance teZero cexGround).m_airborn = 0) := by
  have hle : cexGround.m_airborn ≤ 2000 := by
    rw [show cexGround.m_airborn = 5 from rfl]; norm_num
  exact ⟨cexGround_groundHit, hle,
    c10_ground_graze_frame teZero cexGround cexGround_groundHit hle⟩

end Flightsim
